import Mathlib

/-!
Verification of the DeltaGen manifest-driven validation and delta-job
orchestration pipeline (src/deltaGen_Agent/Utils.py).

The filesystem is modelled explicitly: a `FsTree` carries the immediate
subfolder names and the `(subfolder, filename)` pairs present on disk; a
workbook sheet is its name plus rows of optional string cells; a CSV row is
the ordered list of `(fieldname, value)` pairs produced by a dict reader.
Subprocess execution is an oracle mapping a unit to a `ProcResult`.  Every
definition below is translated from the corresponding Python function;
line references point into src/deltaGen_Agent/Utils.py.
-/

set_option maxRecDepth 4000

/-! ## Python string primitives -/

/-- Whitespace characters removed by Python's default str.strip(). -/
def isPySpace (c : Char) : Bool :=
  c = ' ' || c = '\t' || c = '\n' || c = '\r' || c = '\x0b' || c = '\x0c'

/-- Python str.strip(): drop leading and trailing whitespace. -/
def pyStrip (s : String) : String :=
  ⟨((s.data.dropWhile isPySpace).reverse.dropWhile isPySpace).reverse⟩

/-- Does the first list lead (start) the second? -/
def leadsWith : List Char → List Char → Bool
  | [], _ => true
  | _ :: _, [] => false
  | a :: as, b :: bs => a = b && leadsWith as bs

/-- Does the pattern occur as a contiguous sublist of the text? -/
def hasSubList : List Char → List Char → Bool
  | pat, [] => leadsWith pat []
  | pat, t :: ts => leadsWith pat (t :: ts) || hasSubList pat ts

/-- Python `pat in hay` substring test. -/
def strContainsSub (hay pat : String) : Bool := hasSubList pat.data hay.data

def splitCharAux (sep : Char) : List Char → List Char → List (List Char)
  | [], acc => [acc.reverse]
  | c :: cs, acc =>
      if c = sep then acc.reverse :: splitCharAux sep cs []
      else splitCharAux sep cs (c :: acc)

/-- Python str.split(sep) for a one-character separator. -/
def pySplitChar (sep : Char) (s : String) : List String :=
  (splitCharAux sep s.data []).map (fun l => ⟨l⟩)

/-- Model of the list comprehension at Utils.py:563 / 705:
    strip every comma-separated component. -/
def pySplitComma (s : String) : List String := (pySplitChar ',' s).map pyStrip

/-- Python sep.join(l). -/
def joinSep (sep : String) : List String → String
  | [] => ""
  | [x] => x
  | x :: y :: xs => x ++ sep ++ joinSep sep (y :: xs)

def commaJoin (l : List String) : String := joinSep ", " l

/-- Python membership test for a string in a list of strings. -/
def memStr (x : String) (l : List String) : Bool := l.any (fun y => decide (y = x))

def strEndsWith (s suf : String) : Bool := leadsWith suf.data.reverse s.data.reverse

def strStartsWith (s pre : String) : Bool := leadsWith pre.data s.data

/-- os.path.join for the well-formed relative paths the pipeline builds. -/
def pathJoin (a b : String) : String := if a = "" then b else a ++ "/" ++ b

/-- os.path.dirname over '/'-separated paths. -/
def dirname (s : String) : String :=
  if (pySplitChar '/' s).length ≤ 1 then "" else joinSep "/" (pySplitChar '/' s).dropLast

/-- Python slice s[:200] used on captured subprocess output. -/
def take200 (s : String) : String := ⟨s.data.take 200⟩

/-- Group reversed decimal digits in threes, inserting commas. -/
def commasAux : List Char → List Char
  | a :: b :: c :: d :: rest => a :: b :: c :: ',' :: commasAux (d :: rest)
  | l => l

/-- Python format spec {n:,} — thousands separators. -/
def fmtComma (n : Nat) : String := ⟨(commasAux (toString n).data.reverse).reverse⟩

/-- Python truthiness of an optional cell value (None and "" are falsy). -/
def pyTruthy : Option String → Bool
  | none => false
  | some s => !(decide (s = ""))

/-- Indexing a values_only row; openpyxl pads rows, so out of range is None. -/
def getCell (r : List (Option String)) (i : Nat) : Option String := r.getD i none

/-! ## Archive normalization (flatten_extracted_folder, Utils.py:14-47) -/

/-- One directory entry of an extracted archive. -/
inductive Entry where
  | file (name : String)
  | dir (name : String) (contents : List Entry)

def entryName : Entry → String
  | .file n => n
  | .dir n _ => n

def entryNames (es : List Entry) : List String := es.map entryName

/-- Names skipped by the subfolder scan: `__MACOSX` artifacts and dotfiles
    (Utils.py:26-29). -/
def isSystemName (n : String) : Bool := strStartsWith n "__MACOSX" || strStartsWith n "."

/-- The `subfolders` list of Utils.py:26-29: meaningful immediate
    subdirectories of the extracted folder. -/
def meaningfulSubfolders (es : List Entry) : List String :=
  es.filterMap (fun e =>
    match e with
    | .dir n _ => if isSystemName n then none else some n
    | .file _ => none)

def dirContentsOf (es : List Entry) (n : String) : List Entry :=
  (es.findSome? (fun e =>
    match e with
    | .dir m c => if m = n then some c else none
    | .file _ => none)).getD []

/-- Utils.py:14-47.  If exactly one meaningful subfolder exists, its contents
    are hoisted to the top and everything else under the old extract path is
    removed (shutil.move to a temp dir, shutil.rmtree of the old path,
    move back); otherwise nothing happens.  Returns the final path and the
    resulting directory entries. -/
def flatten_extracted_folder (path : String) (es : List Entry) : String × List Entry :=
  match meaningfulSubfolders es with
  | [n] => (path, dirContentsOf es n)
  | _ => (path, es)

def meaningfulEntries (es : List Entry) : List Entry :=
  es.filter (fun e => !(isSystemName (entryName e)))

/-- Modelled from the spec: section 4.1 describes the wrapper case as the
    directory whose "only non-hidden, non-system entries collapse to exactly
    one subdirectory"; an extracted directory is already flat (has "no
    redundant single wrapper folder") when that does not hold. -/
def specSingleWrapper (es : List Entry) : Bool :=
  match meaningfulEntries es with
  | [Entry.dir _ _] => true
  | _ => false

/-! ## Structural validation (validate_target_folders_with_partition, Utils.py:99-300) -/

/-- One extracted tree side: its immediate subfolder names and the
    `(subfolder, filename)` pairs that exist on disk below the root. -/
structure FsTree where
  subfolders : List String
  files : List (String × String)

/-- os.path.exists(root/folder/file) for a tree side. -/
def fileExists (t : FsTree) (folder file : String) : Bool :=
  t.files.any (fun p => decide (p.1 = folder ∧ p.2 = file))

/-- One spreadsheet row as read with values_only. -/
abbrev Row := List (Option String)

/-- One workbook sheet: its name and its 1-based sequence of rows. -/
structure Sheet where
  name : String
  rows : List Row

/-- One csv.DictReader row: ordered (fieldname, value) pairs. -/
abbrev CsvRow := List (String × String)

/-- Which manifest encoding the dispatch selected (xlsx sheets or CSV rows). -/
inductive Manifest where
  | xlsx (sheets : List Sheet)
  | csv (rows : List CsvRow)

/-- The all_missing_files dict: insertion-ordered keys to file lists. -/
abbrev MissingDict := List (String × List String)

def dictHas (d : MissingDict) (k : String) : Bool := d.any (fun p => decide (p.1 = k))

/-- Python dict assignment d[k] = v. -/
def dictSet (d : MissingDict) (k : String) (v : List String) : MissingDict :=
  if dictHas d k then d.map (fun p => if p.1 = k then (k, v) else p) else d ++ [(k, v)]

/-- The CSV-branch pattern `if k not in d: d[k] = []` (Utils.py:250-251). -/
def dictEnsure (d : MissingDict) (k : String) : MissingDict :=
  if dictHas d k then d else d ++ [(k, [])]

/-- The CSV-branch pattern `if k not in d: d[k] = []` followed by
    `d[k].append(f)` (Utils.py:259-261). -/
def dictAppend (d : MissingDict) (k f : String) : MissingDict :=
  if dictHas d k then d.map (fun p => if p.1 = k then (p.1, p.2 ++ [f]) else p)
  else d ++ [(k, [f])]

def rowFindPFAux : List (Option String) → Nat → Option Nat
  | [], _ => none
  | c :: cs, i =>
      if pyTruthy c && strContainsSub (c.getD "") "Partition_Filename" then some i
      else rowFindPFAux cs (i + 1)

/-- Scan one row for a cell whose truthy value contains 'Partition_Filename'
    (substring match, Utils.py:180-187). -/
def rowFindPF (r : Row) : Option Nat := rowFindPFAux r 0

def sheetFindPFAux : List Row → Nat → Nat → Option (Nat × Nat)
  | _, _, 0 => none
  | [], _, _ + 1 => none
  | r :: rs, rowNum, fuel + 1 =>
      match rowFindPF r with
      | some i => some (rowNum, i)
      | none => sheetFindPFAux rs (rowNum + 1) fuel

/-- Find the Partition_Filename header within the first 10 rows; returns the
    1-based header row and the 0-based column index (Utils.py:177-191). -/
def sheetFindPF (rows : List Row) : Option (Nat × Nat) := sheetFindPFAux rows 1 10

/-- The `if row[i]: v = str(row[i]).strip(); if v:` pattern used for both the
    filename column (Utils.py:203-205) and PartitionName (Utils.py:395-398). -/
def truthyStripped (r : Row) (i : Nat) : Option String :=
  match getCell r i with
  | none => none
  | some v => if v = "" then none else if pyStrip v = "" then none else some (pyStrip v)

/-- The required files a sheet contributes: all truthy, stripped entries of
    its Partition_Filename column below the header (empty if no column). -/
def requiredFilesOfSheet (sh : Sheet) : List String :=
  match sheetFindPF sh.rows with
  | none => []
  | some (hr, col) => (sh.rows.drop hr).filterMap (fun r => truthyStripped r col)

/-- The missing_target_files / missing_source_files list for one sheet and
    one tree side (Utils.py:193-215). -/
def sheetMissing (t : FsTree) (sh : Sheet) : List String :=
  match sheetFindPF sh.rows with
  | none => []
  | some (hr, col) =>
      (sh.rows.drop hr).filterMap (fun r =>
        (truthyStripped r col).bind (fun f =>
          if fileExists t sh.name f then none else some f))

/-- The missing_folders list: sheet names absent from the side's subfolders
    (Utils.py:150-153, 162-165). -/
def missingFolders (sheets : List Sheet) (t : FsTree) : List String :=
  sheets.filterMap (fun sh => if memStr sh.name t.subfolders then none else some sh.name)

def errMsg (s : String) : String := "Error: " ++ s

/-- Utils.py:296-300. -/
def successMsg (hasSource : Bool) : String :=
  "Validation successful: All partition folders and files are present in target" ++
    (if hasSource then " and source" else "")

/-- Utils.py:158. -/
def targetFoldersMsg (missing : List String) : String :=
  errMsg ("Content invalid - Target folder missing subfolders: " ++ commaJoin missing)

/-- Utils.py:170. -/
def sourceFoldersMsg (missing : List String) : String :=
  errMsg ("Content invalid - Source folder missing subfolders: " ++ commaJoin missing)

/-- One line of the missing-files report (Utils.py:289-292): count, first 5
    names, and an omission tail, ending in a newline. -/
def missingEntryLine (p : String × List String) : String :=
  "  " ++ p.1 ++ ": " ++ toString p.2.length ++ " missing files - " ++ commaJoin (p.2.take 5) ++
    (if p.2.length > 5 then " ... and " ++ toString (p.2.length - 5) ++ " more" else "") ++ "\n"

/-- Utils.py:286-294: header plus one line per dict key, then .strip(). -/
def missingFilesMsg (d : MissingDict) : String :=
  pyStrip ("Error: Files listed in partition file not found:\n" ++
    joinSep "" (d.map missingEntryLine))

/-- Utils.py:285-300: report missing files, or success. -/
def filesPhaseResult (d : MissingDict) (hasSource : Bool) : String :=
  if d = [] then successMsg hasSource else missingFilesMsg d

/-- Per-sheet update of all_missing_files (Utils.py:217-223): target entry
    first, then the source entry, each only when its list is non-empty. -/
def xlsxStep (t : FsTree) (src? : Option FsTree) (d : MissingDict) (sh : Sheet) : MissingDict :=
  let d1 := if sheetMissing t sh = [] then d
            else dictSet d ("target/" ++ sh.name) (sheetMissing t sh)
  match src? with
  | none => d1
  | some s =>
      if sheetMissing s sh = [] then d1
      else dictSet d1 ("source/" ++ sh.name) (sheetMissing s sh)

/-- The all_missing_files dict after the spreadsheet file phase. -/
def xlsxFilePhase (sheets : List Sheet) (t : FsTree) (src? : Option FsTree) : MissingDict :=
  sheets.foldl (xlsxStep t src?) []

/-- list(row.values())[0] (Utils.py:242). -/
def csvFirstVal (r : CsvRow) : Option String := r.head?.map (fun p => p.2)

/-- row.get(k, dflt) (Utils.py:243). -/
def csvGet (r : CsvRow) (k dflt : String) : String :=
  match r.find? (fun p => decide (p.1 = k)) with
  | some p => p.2
  | none => dflt

/-- Utils.py:237-246: skip empty rows and rows whose first-column folder name
    or stripped Partition_Filename is falsy; the folder name is not stripped. -/
def csvRowData (r : CsvRow) : Option (String × String) :=
  match csvFirstVal r with
  | none => none
  | some folder =>
      if folder = "" then none
      else if pyStrip (csvGet r "Partition_Filename" "") = "" then none
      else some (folder, pyStrip (csvGet r "Partition_Filename" ""))

/-- Per-row update of all_missing_files in CSV mode (Utils.py:248-278):
    a missing target folder records an empty entry and skips the rest of the
    row; otherwise the target file is checked, then the source side. -/
def csvStep (t : FsTree) (src? : Option FsTree) (d : MissingDict) (r : CsvRow) : MissingDict :=
  match csvRowData r with
  | none => d
  | some (folder, pf) =>
      if memStr folder t.subfolders = false then dictEnsure d ("target/" ++ folder)
      else
        let d1 := if fileExists t folder pf then d else dictAppend d ("target/" ++ folder) pf
        match src? with
        | none => d1
        | some s =>
            if memStr folder s.subfolders = false then dictEnsure d1 ("source/" ++ folder)
            else if fileExists s folder pf then d1
            else dictAppend d1 ("source/" ++ folder) pf

/-- The all_missing_files dict after the CSV phase. -/
def csvFilePhase (rows : List CsvRow) (t : FsTree) (src? : Option FsTree) : MissingDict :=
  rows.foldl (csvStep t src?) []

/-- The accumulated missing-files dict of a validation run, per manifest mode. -/
def reportEntries (m : Manifest) (t : FsTree) (src? : Option FsTree) : MissingDict :=
  match m with
  | .xlsx sheets => xlsxFilePhase sheets t src?
  | .csv rows => csvFilePhase rows t src?

/-- The spreadsheet branch of validation (Utils.py:143-225): target group
    check, then source group check, then the file phase. -/
def validateXlsx (sheets : List Sheet) (t : FsTree) (src? : Option FsTree) : String :=
  if missingFolders sheets t ≠ [] then targetFoldersMsg (missingFolders sheets t)
  else
    match src? with
    | some s =>
        if missingFolders sheets s ≠ [] then sourceFoldersMsg (missingFolders sheets s)
        else filesPhaseResult (xlsxFilePhase sheets t (some s)) true
    | none => filesPhaseResult (xlsxFilePhase sheets t none) false

/-- validate_target_folders_with_partition (Utils.py:99-300) for an existing
    target (and optional source) tree, after manifest-file dispatch selected
    a manifest encoding.  CSV mode (Utils.py:231-280) has no group-presence
    phase: it goes straight to the per-row accumulation. -/
def validate_target_folders_with_partition (m : Manifest) (t : FsTree) (src? : Option FsTree) :
    String :=
  match m with
  | .xlsx sheets => validateXlsx sheets t src?
  | .csv rows => filesPhaseResult (csvFilePhase rows t src?) src?.isSome

/-- The manifest's group names: sheet names, or the first-column folder names
    of surviving CSV rows. -/
def manifestGroups : Manifest → List String
  | .xlsx sheets => sheets.map Sheet.name
  | .csv rows => rows.filterMap (fun r => (csvRowData r).map Prod.fst)

/-- The manifest's (group, required file) pairs. -/
def manifestReq : Manifest → List (String × String)
  | .xlsx sheets => sheets.flatMap (fun sh => (requiredFilesOfSheet sh).map (fun f => (sh.name, f)))
  | .csv rows => rows.filterMap csvRowData

/-- One validated side passes: every group is an immediate subfolder and
    every required file exists under its group subfolder. -/
def sideOk (m : Manifest) (t : FsTree) : Prop :=
  (∀ g ∈ manifestGroups m, memStr g t.subfolders = true) ∧
  (∀ p ∈ manifestReq m, fileExists t p.1 p.2 = true)

/-- Both validated sides pass. -/
def validOk (m : Manifest) (t : FsTree) (src? : Option FsTree) : Prop :=
  sideOk m t ∧ ∀ s, src? = some s → sideOk m s

/-- A reported (key, filename) pair names a file genuinely required by the
    manifest and genuinely absent from the side the key designates. -/
def actuallyMissingAt (m : Manifest) (t : FsTree) (src? : Option FsTree) (key f : String) : Prop :=
  ∃ g, (g, f) ∈ manifestReq m ∧
    ((key = "target/" ++ g ∧ fileExists t g f = false) ∨
     (∃ s, src? = some s ∧ key = "source/" ++ g ∧ fileExists s g f = false))

/-- The per-sheet condition equivalent to contributing nothing to the dict. -/
def sheetOkFor (t : FsTree) (src? : Option FsTree) (sh : Sheet) : Prop :=
  sheetMissing t sh = [] ∧ ∀ s, src? = some s → sheetMissing s sh = []

/-- The per-row condition equivalent to contributing nothing to the dict. -/
def csvRowOk (t : FsTree) (src? : Option FsTree) (r : CsvRow) : Prop :=
  ∀ folder pf, csvRowData r = some (folder, pf) →
    memStr folder t.subfolders = true ∧ fileExists t folder pf = true ∧
    ∀ s, src? = some s → memStr folder s.subfolders = true ∧ fileExists s folder pf = true

/-- Invariant: every filename stored in the dict satisfies P with its key. -/
def dictInv (P : String → String → Prop) (d : MissingDict) : Prop :=
  ∀ p ∈ d, ∀ f ∈ p.2, P p.1 f

/-- Invariant: every stored file list is non-empty. -/
def dictValsNE (d : MissingDict) : Prop := ∀ p ∈ d, p.2 ≠ []

/-! ## Manifest file dispatch (Utils.py:143-283 and 346-450) -/

inductive ManifestDispatch where
  | useXlsx
  | formatError
  | useCsv
  | notFound
deriving DecidableEq

/-- The shared if/elif chain of validate_target_folders_with_partition and
    generate_config_xml: process the spreadsheet when it exists and openpyxl
    is available; report the openpyxl format error when the spreadsheet
    exists without the dependency; otherwise fall back to the CSV when it
    exists; otherwise report the manifest as not found. -/
def manifestDispatch (xlsxExists csvExists hasOpenpyxl : Bool) : ManifestDispatch :=
  if xlsxExists && hasOpenpyxl then .useXlsx
  else if xlsxExists && !hasOpenpyxl then .formatError
  else if csvExists then .useCsv
  else .notFound

/-! ## Job descriptor generation (generate_config_xml, Utils.py:303-510) -/

def requiredCols : List String :=
  ["PartitionName", "PartitionType", "ImageType", "InPlace", "Sparse"]

abbrev ColDict := List (String × Nat)

def colDictHas (d : ColDict) (k : String) : Bool := d.any (fun p => decide (p.1 = k))

def colDictSet (d : ColDict) (k : String) (v : Nat) : ColDict :=
  if colDictHas d k then d.map (fun p => if p.1 = k then (k, v) else p) else d ++ [(k, v)]

/-- The inner cell loop of the column discovery (Utils.py:376-383): a truthy
    cell whose stripped value is a required column records its index, and the
    header row is the row of the first such cell. -/
def scanRowCols : List (Option String) → Nat → Nat → Option Nat → ColDict →
    Option Nat × ColDict
  | [], _, _, hr, ci => (hr, ci)
  | c :: cs, idx, rowNum, hr, ci =>
      if pyTruthy c then
        if memStr (pyStrip (c.getD "")) requiredCols then
          scanRowCols cs (idx + 1) rowNum (some (hr.getD rowNum)) (colDictSet ci (pyStrip (c.getD "")) idx)
        else scanRowCols cs (idx + 1) rowNum hr ci
      else scanRowCols cs (idx + 1) rowNum hr ci

/-- The outer row loop (Utils.py:376-386): scan at most the first 10 rows,
    stopping once all required columns are found. -/
def findColsAux : List Row → Nat → Nat → Option Nat → ColDict → Option Nat × ColDict
  | _, _, 0, hr, ci => (hr, ci)
  | [], _, _ + 1, hr, ci => (hr, ci)
  | r :: rs, rowNum, fuel + 1, hr, ci =>
      match scanRowCols r 0 rowNum hr ci with
      | (hr1, ci1) =>
          if ci1.length = requiredCols.length then (hr1, ci1)
          else findColsAux rs (rowNum + 1) fuel hr1 ci1

def findCols (rows : List Row) : Option Nat × ColDict := findColsAux rows 1 10 none []

def lookupCol (ci : ColDict) (k : String) : Nat :=
  match ci.find? (fun p => decide (p.1 = k)) with
  | some p => p.2
  | none => 0

/-- One job unit of the descriptor (Utils.py:400-409). -/
structure PartitionData where
  pname : String
  ptype : String
  itype : String
  inplace : String
  sparse : String
  srcv : String
  tgtv : String
  stats : String
deriving DecidableEq

/-- The `str(row[i]).strip() if row[i] else dflt` pattern (Utils.py:402-405). -/
def fieldOrD (r : Row) (i : Nat) (dflt : String) : String :=
  match getCell r i with
  | none => dflt
  | some v => if v = "" then dflt else pyStrip v

/-- Build one partition record from a data row; a falsy or all-space
    PartitionName skips the row (Utils.py:394-411). -/
def mkPartition (cwd sp tp sheetName : String) (ci : ColDict) (r : Row) : Option PartitionData :=
  (truthyStripped r (lookupCol ci "PartitionName")).map (fun pn =>
    { pname := pn
      ptype := fieldOrD r (lookupCol ci "PartitionType") "PT_FS_IMAGE"
      itype := fieldOrD r (lookupCol ci "ImageType") "ext4"
      inplace := fieldOrD r (lookupCol ci "InPlace") "0"
      sparse := fieldOrD r (lookupCol ci "Sparse") "1"
      srcv := sp ++ "/" ++ sheetName ++ "/" ++ pn ++ ".img"
      tgtv := tp ++ "/" ++ sheetName ++ "/" ++ pn ++ ".img"
      stats := cwd ++ "/" ++ pn ++ "_full.csv" })

/-- The partitions one sheet contributes: none when column discovery fails
    within the 10-row window (Utils.py:388-391). -/
def sheetPartitions (cwd sp tp : String) (sh : Sheet) : List PartitionData :=
  match findCols sh.rows with
  | (hr?, ci) =>
      if ci.length = requiredCols.length then
        match hr? with
        | some hr => (sh.rows.drop hr).filterMap (mkPartition cwd sp tp sh.name ci)
        | none => []
      else []

/-- The Partition element block (Utils.py:469-481). -/
def partitionXml (p : PartitionData) : List String :=
  ["    <Partition>",
   "        <PartitionName>" ++ p.pname ++ "</PartitionName>",
   "        <PartitionType>" ++ p.ptype ++ "</PartitionType>",
   "        <ImageType>" ++ p.itype ++ "</ImageType>",
   "        <InPlace>" ++ p.inplace ++ "</InPlace>",
   "        <Sparse>" ++ p.sparse ++ "</Sparse>",
   "        <SourceVersion>" ++ p.srcv ++ "</SourceVersion>",
   "        <TargetVersion>" ++ p.tgtv ++ "</TargetVersion>",
   "        <Statistics>" ++ p.stats ++ "</Statistics>",
   "    </Partition>"]

/-- All config.xml lines (Utils.py:456-483). -/
def configXmlLines (cdf : String) (ps : List PartitionData) : List String :=
  (["<?xml version=\"1.0\" encoding=\"UTF-8\"?>",
    "<vrm>",
    "    <DeviceOS>Android</DeviceOS>",
    "    <CreateDp>./CreateDp5</CreateDp>",
    "    <DpVersion>5</DpVersion>",
    "    <ComponentDeltaFileName>" ++ cdf ++ "</ComponentDeltaFileName>",
    "    <RamSize>0xA000000</RamSize>",
    "    <NumBackupSectors>1024</NumBackupSectors>"] ++
   ps.flatMap partitionXml) ++ ["</vrm>"]

/-- Result of a generate_config_xml call: status message, files written as
    (path, content) pairs, directories created. -/
structure CfgResult where
  message : String
  written : List (String × String)
  createdDirs : List String
deriving DecidableEq

def cfgSheetInfo : Option String → String
  | some ps => " for partition sheet '" ++ ps ++ "'"
  | none => ""

/-- Resolution of the config path and output directory (Utils.py:486-496):
    an output path ending in '.xml' is used verbatim, otherwise the file is
    config.xml, or config_<sheet>.xml when a sheet was selected. -/
def cfgOutputTarget (outPath : String) (psheet : Option String) : String × String :=
  if strEndsWith outPath ".xml" then (outPath, dirname outPath)
  else
    match psheet with
    | some ps => (pathJoin outPath ("config_" ++ ps ++ ".xml"), outPath)
    | none => (pathJoin outPath "config.xml", outPath)

/-- workbook[partition_sheet]: the sheet selected by name. -/
def sheetsToProcess (sheets : List Sheet) (ps : String) : List Sheet :=
  match sheets.find? (fun sh => decide (sh.name = ps)) with
  | some sh => [sh]
  | none => []

/-- The tail of generate_config_xml after sheet selection (Utils.py:367-510):
    parse partitions, fail when none, else resolve the output target, create
    its directory when needed (Utils.py:499-501) and write the descriptor. -/
def generate_config_write (toProcess : List Sheet) (cwd sp tp cdf outPath : String)
    (psheet : Option String) (existingDirs : List String) : CfgResult :=
  if toProcess.flatMap (sheetPartitions cwd sp tp) = [] then
    { message := "Error: No partitions found in partition file", written := [], createdDirs := [] }
  else
    { message := "Success: Generated config.xml with " ++
        toString (toProcess.flatMap (sheetPartitions cwd sp tp)).length ++ " partitions" ++
        cfgSheetInfo psheet ++ " at " ++ (cfgOutputTarget outPath psheet).1 ++
        ". Please review the config file and confirm when ready to generate delta.",
      written := [((cfgOutputTarget outPath psheet).1,
        joinSep "\n" (configXmlLines cdf (toProcess.flatMap (sheetPartitions cwd sp tp))))],
      createdDirs :=
        if (cfgOutputTarget outPath psheet).2 ≠ "" ∧
            memStr (cfgOutputTarget outPath psheet).2 existingDirs = false
        then [(cfgOutputTarget outPath psheet).2] else [] }

/-- The spreadsheet branch of generate_config_xml (Utils.py:346-510): with
    several sheets and no selection, return the sheet list prompt; an unknown
    selected sheet is an error; otherwise build and write the descriptor.
    A None output_path defaults to the working directory (Utils.py:325-326). -/
def generate_config_xml (sheets : List Sheet) (cwd sp tp cdf : String)
    (output_path : Option String) (partition_sheet : Option String)
    (existingDirs : List String) : CfgResult :=
  if sheets.length > 1 ∧ partition_sheet = none then
    { message := "Multiple partition sheets found: " ++ commaJoin (sheets.map Sheet.name) ++
        ". Please specify which partition sheet to generate delta for using the partition_sheet parameter.",
      written := [], createdDirs := [] }
  else
    match partition_sheet with
    | some ps =>
        if memStr ps (sheets.map Sheet.name) = false then
          { message := "Error: Partition sheet '" ++ ps ++ "' not found. Available sheets: " ++
              commaJoin (sheets.map Sheet.name),
            written := [], createdDirs := [] }
        else
          generate_config_write (sheetsToProcess sheets ps) cwd sp tp cdf
            (output_path.getD cwd) (some ps) existingDirs
    | none =>
        generate_config_write sheets cwd sp tp cdf (output_path.getD cwd) none existingDirs

/-! ## Proprietary differ invocation (generate_delta, Utils.py:532-617) -/

/-- Outcome of one bounded subprocess.run call. -/
inductive ProcResult where
  | completed (returncode : Int) (stdout : String) (stderr : String)
  | timedOut
  | raised (msg : String)
deriving DecidableEq

/-- The working-directory state generate_delta reads. -/
structure Workspace where
  cwd : String
  redbendExists : Bool
  existingFiles : List String
  deltaOutputExists : Bool

/-- Result of a generate_delta call: message, whether the delta_output
    directory was created, configs whose subprocess ran, per-config lines. -/
structure RedbendRun where
  message : String
  createdDeltaOutput : Bool
  invoked : List String
  results : List String
deriving DecidableEq

/-- Per-config result line (Utils.py:594-611).  Both exit-code branches emit
    the identical success line: a non-zero exit is reported as success (the
    "Simulation" affordance, Utils.py:597-601). -/
def redbendLine (cfg : String) (r : ProcResult) : String :=
  match r with
  | .completed rc out _ =>
      if rc = 0 then "✓ " ++ cfg ++ ": Success\n  Output: " ++ take200 out
      else "✓ " ++ cfg ++ ": Success\n  Output: " ++ take200 out
  | .timedOut => "✗ " ++ cfg ++ ": Timeout (exceeded 1 hour)"
  | .raised e => "✗ " ++ cfg ++ ": Exception - " ++ e

/-- The missing_files check over parsed config names (Utils.py:566-572). -/
def redbendMissingConfigs (ws : Workspace) (names : String) : List String :=
  (pySplitComma names).filter (fun c => memStr c ws.existingFiles = false)

/-- generate_delta (Utils.py:532-617).  The delta_output directory is created
    up front when absent (Utils.py:546-550), before the executable and config
    checks; the oracle gives each config file's subprocess outcome. -/
def generate_delta (ws : Workspace) (oracle : String → ProcResult)
    (config_file_names : String) : RedbendRun :=
  if ws.redbendExists = false then
    { message := "Error: Redbend executable 'vRapidMobileCMD-Linux.exe' not found in current directory: " ++ ws.cwd,
      createdDeltaOutput := !ws.deltaOutputExists, invoked := [], results := [] }
  else if redbendMissingConfigs ws config_file_names ≠ [] then
    { message := "Error: Config file(s) not found: " ++
        commaJoin (redbendMissingConfigs ws config_file_names),
      createdDeltaOutput := !ws.deltaOutputExists, invoked := [], results := [] }
  else
    { message := "Delta generation completed for " ++
        toString (pySplitComma config_file_names).length ++ " config file(s):\n\n" ++
        joinSep "\n" ((pySplitComma config_file_names).map (fun c => redbendLine c (oracle c))) ++
        "\n\nDelta files saved in: " ++ pathJoin ws.cwd "delta_output",
      createdDeltaOutput := !ws.deltaOutputExists,
      invoked := pySplitComma config_file_names,
      results := (pySplitComma config_file_names).map (fun c => redbendLine c (oracle c)) }

/-! ## Generic binary-diff invocation (generate_xdelta, Utils.py:662-771) -/

/-- Result of a generate_xdelta call. -/
structure XRun where
  message : String
  createdDirs : List String
  invoked : List String
  results : List String
deriving DecidableEq

/-- root/sheet/partition.img (Utils.py:712-713). -/
def xdeltaImgFile (root sheet p : String) : String := pathJoin (pathJoin root sheet) (p ++ ".img")

/-- The aggregated missing_files list over every requested partition, source
    path first then target path (Utils.py:710-718). -/
def xdeltaMissing (existingPaths : List String) (sp tp sheet : String) (parts : List String) :
    List String :=
  parts.flatMap (fun p =>
    (if memStr (xdeltaImgFile sp sheet p) existingPaths = false
     then ["source: " ++ xdeltaImgFile sp sheet p] else []) ++
    (if memStr (xdeltaImgFile tp sheet p) existingPaths = false
     then ["target: " ++ xdeltaImgFile tp sheet p] else []))

/-- The executable candidates probed with a 5-second version check
    (Utils.py:690-699). -/
def xdeltaCandidates : List String := ["xdelta3", "xdelta", "xdelta3.exe"]

/-- Per-partition result line (Utils.py:745-766): success needs exit code 0
    and the delta artifact existing afterwards. -/
def xdeltaLine (oracle : String → ProcResult) (deltaExistsAfter : String → Bool)
    (deltaSize : String → Nat) (outPath p : String) : String :=
  match oracle p with
  | .completed rc _ err =>
      if rc = 0 then
        if deltaExistsAfter (pathJoin outPath (p ++ ".delta")) then
          "✓ " ++ p ++ ".img: Success (delta size: " ++
            fmtComma (deltaSize (pathJoin outPath (p ++ ".delta"))) ++ " bytes)\n  Output: " ++
            pathJoin outPath (p ++ ".delta")
        else "✗ " ++ p ++ ".img: Delta file not created"
      else "✗ " ++ p ++ ".img: Failed (exit code " ++ toString rc ++ ")\n  Error: " ++ take200 err
  | .timedOut => "✗ " ++ p ++ ".img: Timeout (exceeded 1 hour)"
  | .raised e => "✗ " ++ p ++ ".img: Exception - " ++ e

/-- generate_xdelta (Utils.py:662-771).  The output directory is created up
    front when absent (Utils.py:680-687), before the executable probe; a
    failed probe or any missing image aborts before any delta subprocess. -/
def generate_xdelta (existingPaths existingDirs : List String) (probeOk : String → Bool)
    (oracle : String → ProcResult) (deltaExistsAfter : String → Bool) (deltaSize : String → Nat)
    (cwd partition_files source_path target_path partition_sheet : String)
    (output_path : Option String) : XRun :=
  match xdeltaCandidates.find? probeOk with
  | none =>
      { message := "Error: XDelta executable not found. Please install xdelta3 or ensure it's in PATH.",
        createdDirs := if memStr (output_path.getD (pathJoin cwd "delta_output")) existingDirs = false
          then [output_path.getD (pathJoin cwd "delta_output")] else [],
        invoked := [], results := [] }
  | some _ =>
      if xdeltaMissing existingPaths source_path target_path partition_sheet
          (pySplitComma partition_files) ≠ [] then
        { message := "Error: Partition file(s) not found:\n" ++
            joinSep "\n" ((xdeltaMissing existingPaths source_path target_path partition_sheet
              (pySplitComma partition_files)).map (fun f => "  - " ++ f)),
          createdDirs := if memStr (output_path.getD (pathJoin cwd "delta_output")) existingDirs = false
            then [output_path.getD (pathJoin cwd "delta_output")] else [],
          invoked := [], results := [] }
      else
        { message := "XDelta generation completed for " ++
            toString (pySplitComma partition_files).length ++ " partition(s):\n\n" ++
            joinSep "\n" ((pySplitComma partition_files).map
              (xdeltaLine oracle deltaExistsAfter deltaSize (output_path.getD (pathJoin cwd "delta_output")))),
          createdDirs := if memStr (output_path.getD (pathJoin cwd "delta_output")) existingDirs = false
            then [output_path.getD (pathJoin cwd "delta_output")] else [],
          invoked := pySplitComma partition_files,
          results := (pySplitComma partition_files).map
            (xdeltaLine oracle deltaExistsAfter deltaSize (output_path.getD (pathJoin cwd "delta_output"))) }

/-! ## String lemmas -/

theorem strDataAppend (a b : String) : (a ++ b).data = a.data ++ b.data := by
  cases a; cases b; rfl

theorem strDataInj {a b : String} (h : a.data = b.data) : a = b := congrArg String.mk h

theorem ne_of_data_head {s t : String} (h : s.data.head? ≠ t.data.head?) : s ≠ t :=
  fun he => h (by rw [he])

theorem headq_append {c : Char} {l₁ l₂ : List Char} (h : l₁.head? = some c) :
    (l₁ ++ l₂).head? = some c := by
  cases l₁ with
  | nil => simp at h
  | cons a as => simp at h ⊢; exact h

theorem dropWhile_append_last (p : Char → Bool) (c : Char) (h : p c = false) :
    ∀ xs : List Char, List.dropWhile p (xs ++ [c]) = List.dropWhile p xs ++ [c] := by
  intro xs
  induction xs with
  | nil => simp [List.dropWhile_cons, h]
  | cons a as ih =>
      by_cases ha : p a = true
      · simp [List.dropWhile_cons, ha, ih]
      · simp [List.dropWhile_cons, ha]

theorem pyStrip_head {s : String} {c : Char} {l : List Char} (hs : s.data = c :: l)
    (h : isPySpace c = false) : ∃ m, (pyStrip s).data = c :: m := by
  cases s with
  | mk d =>
      cases hs
      have h1 : List.dropWhile isPySpace (c :: l) = c :: l := by
        simp [List.dropWhile_cons, h]
      refine ⟨(List.dropWhile isPySpace l.reverse).reverse, ?_⟩
      show (((c :: l).dropWhile isPySpace).reverse.dropWhile isPySpace).reverse = _
      rw [h1, List.reverse_cons, dropWhile_append_last _ _ h, List.reverse_append]
      rfl

theorem errMsg_head (s : String) : (errMsg s).data.head? = some 'E' := by
  have h1 : (errMsg s).data = "Error: ".data ++ s.data := strDataAppend _ _
  rw [h1]
  exact headq_append (by decide)

theorem successMsg_head (b : Bool) : (successMsg b).data.head? = some 'V' := by
  have h1 : (successMsg b).data =
      "Validation successful: All partition folders and files are present in target".data ++
        (if b then " and source" else "").data := strDataAppend _ _
  rw [h1]
  exact headq_append (by decide)

theorem missingFilesMsg_head (d : MissingDict) :
    (missingFilesMsg d).data.head? = some 'E' := by
  have h0 : ("Error: Files listed in partition file not found:\n").data =
      'E' :: ("rror: Files listed in partition file not found:\n").data := by decide
  have h1 : ("Error: Files listed in partition file not found:\n" ++
      joinSep "" (d.map missingEntryLine)).data =
      'E' :: (("rror: Files listed in partition file not found:\n").data ++
        (joinSep "" (d.map missingEntryLine)).data) := by
    rw [strDataAppend, h0]; rfl
  rcases pyStrip_head h1 (by decide) with ⟨m, hm⟩
  show (pyStrip _).data.head? = some 'E'
  rw [hm]; rfl

theorem errMsg_ne_successMsg (s : String) (b : Bool) : errMsg s ≠ successMsg b :=
  ne_of_data_head (by rw [errMsg_head, successMsg_head]; decide)

theorem missingFilesMsg_ne_successMsg (d : MissingDict) (b : Bool) :
    missingFilesMsg d ≠ successMsg b :=
  ne_of_data_head (by rw [missingFilesMsg_head, successMsg_head]; decide)

theorem strAppendLeftCancel {a b c : String} (h : a ++ b = a ++ c) : b = c := by
  have hd := congrArg String.data h
  rw [strDataAppend, strDataAppend] at hd
  exact strDataInj (List.append_cancel_left hd)

theorem sourceTag_ne_targetTag (x y : String) : "source: " ++ x ≠ "target: " ++ y := by
  apply ne_of_data_head
  have h1 : ("source: " ++ x).data.head? = some 's' := by
    rw [strDataAppend]; exact headq_append (by decide)
  have h2 : ("target: " ++ y).data.head? = some 't' := by
    rw [strDataAppend]; exact headq_append (by decide)
  rw [h1, h2]; decide

/-! ## Boolean and membership lemmas -/

theorem bool_eq_false {b : Bool} (h : ¬ b = true) : b = false := by
  cases b
  · rfl
  · exact absurd rfl h

theorem memStr_iff {x : String} {l : List String} : memStr x l = true ↔ x ∈ l := by
  simp [memStr, List.any_eq_true]

theorem fileExists_iff {t : FsTree} {g f : String} :
    fileExists t g f = true ↔ (g, f) ∈ t.files := by
  simp only [fileExists, List.any_eq_true, decide_eq_true_eq]
  constructor
  · rintro ⟨⟨a, b⟩, h, h1, h2⟩
    cases h1; cases h2; exact h
  · intro h; exact ⟨(g, f), h, rfl, rfl⟩

/-! ## Generic fold lemmas over the accumulating dict -/

theorem foldl_preserve {α β : Type} (step : α → β → α) (P : α → Prop) :
    ∀ (l : List β), (∀ d r, r ∈ l → P d → P (step d r)) → ∀ d, P d → P (l.foldl step d) := by
  intro l
  induction l with
  | nil => intro _ d hd; exact hd
  | cons r rs ih =>
      intro h d hd
      exact ih (fun d' r' hr' => h d' r' (List.mem_cons_of_mem _ hr')) _
        (h d r (List.mem_cons_self _ _) hd)

theorem foldl_ne_nil {β : Type} (step : MissingDict → β → MissingDict)
    (hpres : ∀ d b, d ≠ [] → step d b ≠ []) :
    ∀ (l : List β) (d : MissingDict), d ≠ [] → l.foldl step d ≠ [] := by
  intro l
  induction l with
  | nil => intro d hd; exact hd
  | cons r rs ih => intro d hd; exact ih _ (hpres _ _ hd)

theorem foldl_nil_iff {β : Type} (step : MissingDict → β → MissingDict) (Ok : β → Prop)
    (hpres : ∀ d b, d ≠ [] → step d b ≠ [])
    (hok : ∀ b, step [] b = [] ↔ Ok b) :
    ∀ l : List β, (l.foldl step [] = [] ↔ ∀ b ∈ l, Ok b) := by
  intro l
  induction l with
  | nil => simp
  | cons r rs ih =>
      simp only [List.foldl_cons]
      by_cases h : step [] r = []
      · rw [h, ih]
        constructor
        · intro hall b hb
          rcases List.mem_cons.mp hb with rfl | hb'
          · exact (hok b).mp h
          · exact hall b hb'
        · intro hall b hb
          exact hall b (List.mem_cons_of_mem _ hb)
      · constructor
        · intro hfold
          exact absurd hfold (foldl_ne_nil step hpres rs _ h)
        · intro hall
          exact absurd ((hok r).mpr (hall r (List.mem_cons_self _ _))) h

/-! ## Dict operation lemmas -/

theorem dictHas_nil_false (k : String) : dictHas [] k = false := rfl

theorem dictSet_ne_nil (d : MissingDict) (k : String) (v : List String) :
    dictSet d k v ≠ [] := by
  unfold dictSet
  split
  · rename_i hhas
    have hd : d ≠ [] := by
      intro h; subst h; simp [dictHas] at hhas
    cases d with
    | nil => exact absurd rfl hd
    | cons a l => simp
  · simp

theorem dictEnsure_ne_nil (d : MissingDict) (k : String) : dictEnsure d k ≠ [] := by
  unfold dictEnsure
  split
  · rename_i hhas
    intro h; subst h; simp [dictHas] at hhas
  · simp

theorem dictAppend_ne_nil (d : MissingDict) (k f : String) : dictAppend d k f ≠ [] := by
  unfold dictAppend
  split
  · rename_i hhas
    have hd : d ≠ [] := by
      intro h; subst h; simp [dictHas] at hhas
    cases d with
    | nil => exact absurd rfl hd
    | cons a l => simp
  · simp

theorem mem_dictSet {d : MissingDict} {k : String} {v : List String} {p : String × List String}
    (h : p ∈ dictSet d k v) : p ∈ d ∨ p = (k, v) := by
  unfold dictSet at h
  split at h
  · rcases List.mem_map.mp h with ⟨q, hq, hqe⟩
    by_cases hk : q.1 = k
    · right; rw [if_pos hk] at hqe; exact hqe.symm
    · left; rw [if_neg hk] at hqe; exact hqe ▸ hq
  · rcases List.mem_append.mp h with h1 | h1
    · left; exact h1
    · right; simpa using h1

theorem mem_dictEnsure {d : MissingDict} {k : String} {p : String × List String}
    (h : p ∈ dictEnsure d k) : p ∈ d ∨ p = (k, []) := by
  unfold dictEnsure at h
  split at h
  · left; exact h
  · rcases List.mem_append.mp h with h1 | h1
    · left; exact h1
    · right; simpa using h1

theorem mem_dictAppend {d : MissingDict} {k f : String} {p : String × List String}
    (h : p ∈ dictAppend d k f) :
    p ∈ d ∨ ∃ l, p = (k, l ++ [f]) ∧ ((k, l) ∈ d ∨ l = []) := by
  unfold dictAppend at h
  split at h
  · rcases List.mem_map.mp h with ⟨q, hq, hqe⟩
    by_cases hk : q.1 = k
    · right
      refine ⟨q.2, ?_, Or.inl ?_⟩
      · rw [if_pos hk] at hqe; rw [← hqe, hk]
      · rw [← hk]; exact hq
    · left; rw [if_neg hk] at hqe; exact hqe ▸ hq
  · rcases List.mem_append.mp h with h1 | h1
    · left; exact h1
    · right
      refine ⟨[], ?_, Or.inr rfl⟩
      simpa using h1

theorem dictInv_nil (P : String → String → Prop) : dictInv P [] :=
  fun p hp => absurd hp (List.not_mem_nil p)

theorem dictInv_dictSet {P : String → String → Prop} {d : MissingDict} {k : String}
    {v : List String} (hI : dictInv P d) (hv : ∀ f ∈ v, P k f) : dictInv P (dictSet d k v) := by
  intro p hp f hf
  rcases mem_dictSet hp with h | rfl
  · exact hI p h f hf
  · exact hv f hf

theorem dictInv_dictEnsure {P : String → String → Prop} {d : MissingDict} {k : String}
    (hI : dictInv P d) : dictInv P (dictEnsure d k) := by
  intro p hp f hf
  rcases mem_dictEnsure hp with h | rfl
  · exact hI p h f hf
  · simp at hf

theorem dictInv_dictAppend {P : String → String → Prop} {d : MissingDict} {k f0 : String}
    (hI : dictInv P d) (hf0 : P k f0) : dictInv P (dictAppend d k f0) := by
  intro p hp f hf
  rcases mem_dictAppend hp with h | ⟨l, rfl, hl⟩
  · exact hI p h f hf
  · rcases List.mem_append.mp hf with hfl | hfl
    · rcases hl with hld | rfl
      · exact hI (k, l) hld f hfl
      · simp at hfl
    · rw [List.mem_singleton] at hfl; subst hfl; exact hf0

theorem dictValsNE_nil : dictValsNE [] := fun p hp => absurd hp (List.not_mem_nil p)

theorem dictValsNE_dictSet {d : MissingDict} {k : String} {v : List String}
    (hI : dictValsNE d) (hv : v ≠ []) : dictValsNE (dictSet d k v) := by
  intro p hp
  rcases mem_dictSet hp with h | rfl
  · exact hI p h
  · exact hv

/-! ## Sheet-level lemmas -/

theorem sheetMissing_eq (t : FsTree) (sh : Sheet) :
    sheetMissing t sh = (requiredFilesOfSheet sh).filterMap
      (fun f => if fileExists t sh.name f then none else some f) := by
  unfold sheetMissing requiredFilesOfSheet
  cases hpf : sheetFindPF sh.rows with
  | none => rfl
  | some pr =>
      cases pr with
      | mk hr col => rw [List.filterMap_filterMap]

theorem mem_sheetMissing {t : FsTree} {sh : Sheet} {f : String} :
    f ∈ sheetMissing t sh ↔
      f ∈ requiredFilesOfSheet sh ∧ fileExists t sh.name f = false := by
  rw [sheetMissing_eq, List.mem_filterMap]
  constructor
  · rintro ⟨a, ha, hae⟩
    by_cases hex : fileExists t sh.name a = true
    · rw [if_pos hex] at hae; cases hae
    · rw [if_neg hex] at hae
      cases hae
      exact ⟨ha, bool_eq_false hex⟩
  · rintro ⟨ha, hex⟩
    refine ⟨f, ha, ?_⟩
    rw [if_neg ?_]
    intro hc; rw [hc] at hex; cases hex

theorem sheetMissing_nil_iff {t : FsTree} {sh : Sheet} :
    sheetMissing t sh = [] ↔ ∀ f ∈ requiredFilesOfSheet sh, fileExists t sh.name f = true := by
  rw [List.eq_nil_iff_forall_not_mem]
  constructor
  · intro h f hf
    by_cases hex : fileExists t sh.name f = true
    · exact hex
    · exact absurd (mem_sheetMissing.mpr ⟨hf, bool_eq_false hex⟩) (h f)
  · intro h f hf
    rcases mem_sheetMissing.mp hf with ⟨h1, h2⟩
    rw [h f h1] at h2; cases h2

theorem missingFolders_nil_iff {sheets : List Sheet} {t : FsTree} :
    missingFolders sheets t = [] ↔ ∀ sh ∈ sheets, memStr sh.name t.subfolders = true := by
  unfold missingFolders
  rw [List.filterMap_eq_nil_iff]
  constructor
  · intro h sh hsh
    have := h sh hsh
    by_cases hm : memStr sh.name t.subfolders = true
    · exact hm
    · rw [bool_eq_false hm] at this; simp at this
  · intro h sh hsh
    simp [h sh hsh]

theorem mem_missingFolders {sheets : List Sheet} {t : FsTree} {g : String} :
    g ∈ missingFolders sheets t ↔
      ∃ sh ∈ sheets, sh.name = g ∧ memStr g t.subfolders = false := by
  unfold missingFolders
  rw [List.mem_filterMap]
  constructor
  · rintro ⟨sh, hsh, he⟩
    by_cases hm : memStr sh.name t.subfolders = true
    · simp [hm] at he
    · have hm' := bool_eq_false hm
      rw [hm'] at he; simp at he
      subst he
      exact ⟨sh, hsh, rfl, hm'⟩
  · rintro ⟨sh, hsh, rfl, hm⟩
    refine ⟨sh, hsh, ?_⟩
    rw [hm]; simp

/-! ## Manifest bridge lemmas -/

theorem mem_manifestReq_xlsx {sheets : List Sheet} {g f : String} :
    (g, f) ∈ manifestReq (.xlsx sheets) ↔
      ∃ sh ∈ sheets, sh.name = g ∧ f ∈ requiredFilesOfSheet sh := by
  simp only [manifestReq, List.mem_flatMap, List.mem_map]
  constructor
  · rintro ⟨sh, hsh, f', hf', he⟩
    cases he
    exact ⟨sh, hsh, rfl, hf'⟩
  · rintro ⟨sh, hsh, rfl, hf⟩
    exact ⟨sh, hsh, f, hf, rfl⟩

theorem sideOk_xlsx {sheets : List Sheet} {t : FsTree} :
    sideOk (.xlsx sheets) t ↔
      missingFolders sheets t = [] ∧ ∀ sh ∈ sheets, sheetMissing t sh = [] := by
  unfold sideOk
  rw [missingFolders_nil_iff]
  constructor
  · rintro ⟨hg, hf⟩
    constructor
    · intro sh hsh
      exact hg sh.name (by simp [manifestGroups]; exact ⟨sh, hsh, rfl⟩)
    · intro sh hsh
      rw [sheetMissing_nil_iff]
      intro f hfr
      exact hf (sh.name, f) (mem_manifestReq_xlsx.mpr ⟨sh, hsh, rfl, hfr⟩)
  · rintro ⟨hg, hm⟩
    constructor
    · intro g hgm
      simp [manifestGroups] at hgm
      rcases hgm with ⟨sh, hsh, rfl⟩
      exact hg sh hsh
    · rintro ⟨g, f⟩ hp
      rcases mem_manifestReq_xlsx.mp hp with ⟨sh, hsh, rfl, hfr⟩
      exact (sheetMissing_nil_iff.mp (hm sh hsh)) f hfr

theorem mem_manifestGroups_csv {rows : List CsvRow} {g : String} :
    g ∈ manifestGroups (.csv rows) ↔
      ∃ r ∈ rows, ∃ pf, csvRowData r = some (g, pf) := by
  simp only [manifestGroups, List.mem_filterMap, Option.map_eq_some']
  constructor
  · rintro ⟨r, hr, ⟨a, b⟩, hc, he⟩
    cases he
    exact ⟨r, hr, b, hc⟩
  · rintro ⟨r, hr, pf, hc⟩
    exact ⟨r, hr, (g, pf), hc, rfl⟩

theorem sideOkBoth_csv {rows : List CsvRow} {t : FsTree} {src? : Option FsTree} :
    (∀ r ∈ rows, csvRowOk t src? r) ↔ validOk (.csv rows) t src? := by
  constructor
  · intro h
    refine ⟨⟨?_, ?_⟩, ?_⟩
    · intro g hg
      rcases mem_manifestGroups_csv.mp hg with ⟨r, hr, pf, hc⟩
      exact ((h r hr) g pf hc).1
    · rintro ⟨g, f⟩ hp
      simp only [manifestReq, List.mem_filterMap] at hp
      rcases hp with ⟨r, hr, hc⟩
      exact ((h r hr) g f hc).2.1
    · intro s hs
      refine ⟨?_, ?_⟩
      · intro g hg
        rcases mem_manifestGroups_csv.mp hg with ⟨r, hr, pf, hc⟩
        exact (((h r hr) g pf hc).2.2 s hs).1
      · rintro ⟨g, f⟩ hp
        simp only [manifestReq, List.mem_filterMap] at hp
        rcases hp with ⟨r, hr, hc⟩
        exact (((h r hr) g f hc).2.2 s hs).2
  · rintro ⟨⟨hg, hf⟩, hsrc⟩ r hr folder pf hc
    refine ⟨?_, ?_, ?_⟩
    · exact hg folder (mem_manifestGroups_csv.mpr ⟨r, hr, pf, hc⟩)
    · exact hf (folder, pf) (by simp only [manifestReq, List.mem_filterMap]; exact ⟨r, hr, hc⟩)
    · intro s hs
      rcases hsrc s hs with ⟨hg2, hf2⟩
      exact ⟨hg2 folder (mem_manifestGroups_csv.mpr ⟨r, hr, pf, hc⟩),
        hf2 (folder, pf) (by simp only [manifestReq, List.mem_filterMap]; exact ⟨r, hr, hc⟩)⟩

/-! ## xlsx step lemmas -/

theorem bool_true_of_not_false {b : Bool} (h : ¬ b = false) : b = true := by
  cases b
  · exact absurd rfl h
  · rfl

theorem xlsxStep_ne_nil {t : FsTree} {src? : Option FsTree} {d : MissingDict} {sh : Sheet}
    (hd : d ≠ []) : xlsxStep t src? d sh ≠ [] := by
  cases src? with
  | none =>
      simp only [xlsxStep]
      by_cases ht : sheetMissing t sh = []
      · rw [if_pos ht]; exact hd
      · rw [if_neg ht]; exact dictSet_ne_nil _ _ _
  | some s =>
      simp only [xlsxStep]
      by_cases hs : sheetMissing s sh = []
      · rw [if_pos hs]
        by_cases ht : sheetMissing t sh = []
        · rw [if_pos ht]; exact hd
        · rw [if_neg ht]; exact dictSet_ne_nil _ _ _
      · rw [if_neg hs]; exact dictSet_ne_nil _ _ _

theorem xlsxStep_nil_iff {t : FsTree} {src? : Option FsTree} {sh : Sheet} :
    xlsxStep t src? [] sh = [] ↔ sheetOkFor t src? sh := by
  constructor
  · intro h
    cases src? with
    | none =>
        simp only [xlsxStep] at h
        by_cases ht : sheetMissing t sh = []
        · exact ⟨ht, fun s hs => by cases hs⟩
        · rw [if_neg ht] at h
          exact absurd h (dictSet_ne_nil _ _ _)
    | some s =>
        simp only [xlsxStep] at h
        by_cases hs : sheetMissing s sh = []
        · rw [if_pos hs] at h
          by_cases ht : sheetMissing t sh = []
          · exact ⟨ht, fun s' hs' => by cases hs'; exact hs⟩
          · rw [if_neg ht] at h
            exact absurd h (dictSet_ne_nil _ _ _)
        · rw [if_neg hs] at h
          exact absurd h (dictSet_ne_nil _ _ _)
  · rintro ⟨ht, hsrc⟩
    cases src? with
    | none => simp only [xlsxStep, ht]; simp
    | some s => simp only [xlsxStep, ht, hsrc s rfl]; simp

theorem mem_xlsxStep {t : FsTree} {src? : Option FsTree} {d : MissingDict} {sh : Sheet}
    {p : String × List String} (h : p ∈ xlsxStep t src? d sh) :
    p ∈ d ∨
      (sheetMissing t sh ≠ [] ∧ p = ("target/" ++ sh.name, sheetMissing t sh)) ∨
      ∃ s, src? = some s ∧ sheetMissing s sh ≠ [] ∧
        p = ("source/" ++ sh.name, sheetMissing s sh) := by
  cases src? with
  | none =>
      simp only [xlsxStep] at h
      by_cases ht : sheetMissing t sh = []
      · rw [if_pos ht] at h; exact Or.inl h
      · rw [if_neg ht] at h
        rcases mem_dictSet h with h1 | h1
        · exact Or.inl h1
        · exact Or.inr (Or.inl ⟨ht, h1⟩)
  | some s =>
      simp only [xlsxStep] at h
      by_cases hs : sheetMissing s sh = []
      · rw [if_pos hs] at h
        by_cases ht : sheetMissing t sh = []
        · rw [if_pos ht] at h; exact Or.inl h
        · rw [if_neg ht] at h
          rcases mem_dictSet h with h1 | h1
          · exact Or.inl h1
          · exact Or.inr (Or.inl ⟨ht, h1⟩)
      · rw [if_neg hs] at h
        rcases mem_dictSet h with h1 | h1
        · by_cases ht : sheetMissing t sh = []
          · rw [if_pos ht] at h1; exact Or.inl h1
          · rw [if_neg ht] at h1
            rcases mem_dictSet h1 with h2 | h2
            · exact Or.inl h2
            · exact Or.inr (Or.inl ⟨ht, h2⟩)
        · exact Or.inr (Or.inr ⟨s, rfl, hs, h1⟩)

theorem xlsxStep_inv {sheets : List Sheet} {t : FsTree} {src? : Option FsTree}
    {d : MissingDict} {sh : Sheet} (hsh : sh ∈ sheets)
    (hI : dictInv (actuallyMissingAt (.xlsx sheets) t src?) d) :
    dictInv (actuallyMissingAt (.xlsx sheets) t src?) (xlsxStep t src? d sh) := by
  intro p hp f hf
  rcases mem_xlsxStep hp with h1 | ⟨hne, rfl⟩ | ⟨s, hseq, hne, rfl⟩
  · exact hI p h1 f hf
  · rcases mem_sheetMissing.mp hf with ⟨hfreq, hfex⟩
    exact ⟨sh.name, mem_manifestReq_xlsx.mpr ⟨sh, hsh, rfl, hfreq⟩, Or.inl ⟨rfl, hfex⟩⟩
  · rcases mem_sheetMissing.mp hf with ⟨hfreq, hfex⟩
    exact ⟨sh.name, mem_manifestReq_xlsx.mpr ⟨sh, hsh, rfl, hfreq⟩,
      Or.inr ⟨s, hseq, rfl, hfex⟩⟩

theorem dictValsNE_xlsxStep {t : FsTree} {src? : Option FsTree} {d : MissingDict} {sh : Sheet}
    (h : dictValsNE d) : dictValsNE (xlsxStep t src? d sh) := by
  intro p hp
  rcases mem_xlsxStep hp with h1 | ⟨hne, rfl⟩ | ⟨s, _, hne, rfl⟩
  · exact h p h1
  · exact hne
  · exact hne

theorem xlsxPhase_nil_iff {sheets : List Sheet} {t : FsTree} {src? : Option FsTree} :
    xlsxFilePhase sheets t src? = [] ↔ ∀ sh ∈ sheets, sheetOkFor t src? sh :=
  foldl_nil_iff _ _ (fun _ _ hd => xlsxStep_ne_nil hd) (fun _ => xlsxStep_nil_iff) sheets

/-! ## CSV step lemmas -/

theorem csvStep_ne_nil {t : FsTree} {src? : Option FsTree} {d : MissingDict} {r : CsvRow}
    (hd : d ≠ []) : csvStep t src? d r ≠ [] := by
  cases hcv : csvRowData r with
  | none =>
      cases src? with
      | none => simp only [csvStep, hcv]; exact hd
      | some s => simp only [csvStep, hcv]; exact hd
  | some pr =>
      obtain ⟨folder, pf⟩ := pr
      cases src? with
      | none =>
          simp only [csvStep, hcv]
          by_cases hm : memStr folder t.subfolders = false
          · rw [if_pos hm]; exact dictEnsure_ne_nil _ _
          · rw [if_neg hm]
            by_cases hf : fileExists t folder pf = true
            · rw [if_pos hf]; exact hd
            · rw [if_neg hf]; exact dictAppend_ne_nil _ _ _
      | some s =>
          simp only [csvStep, hcv]
          by_cases hm : memStr folder t.subfolders = false
          · rw [if_pos hm]; exact dictEnsure_ne_nil _ _
          · rw [if_neg hm]
            by_cases hm2 : memStr folder s.subfolders = false
            · rw [if_pos hm2]; exact dictEnsure_ne_nil _ _
            · rw [if_neg hm2]
              by_cases hf2 : fileExists s folder pf = true
              · rw [if_pos hf2]
                by_cases hf : fileExists t folder pf = true
                · rw [if_pos hf]; exact hd
                · rw [if_neg hf]; exact dictAppend_ne_nil _ _ _
              · rw [if_neg hf2]; exact dictAppend_ne_nil _ _ _

theorem csvStep_nil_iff {t : FsTree} {src? : Option FsTree} {r : CsvRow} :
    csvStep t src? [] r = [] ↔ csvRowOk t src? r := by
  constructor
  · intro h folder pf hc
    cases src? with
    | none =>
        simp only [csvStep, hc] at h
        by_cases hm : memStr folder t.subfolders = false
        · rw [if_pos hm] at h; exact absurd h (dictEnsure_ne_nil _ _)
        · have hm' := bool_true_of_not_false hm
          rw [if_neg hm] at h
          by_cases hf : fileExists t folder pf = true
          · exact ⟨hm', hf, fun s hs => by cases hs⟩
          · rw [if_neg hf] at h
            exact absurd h (dictAppend_ne_nil _ _ _)
    | some s =>
        simp only [csvStep, hc] at h
        by_cases hm : memStr folder t.subfolders = false
        · rw [if_pos hm] at h; exact absurd h (dictEnsure_ne_nil _ _)
        · have hm' := bool_true_of_not_false hm
          rw [if_neg hm] at h
          by_cases hf : fileExists t folder pf = true
          · rw [if_pos hf] at h
            by_cases hm2 : memStr folder s.subfolders = false
            · rw [if_pos hm2] at h; exact absurd h (dictEnsure_ne_nil _ _)
            · have hm2' := bool_true_of_not_false hm2
              rw [if_neg hm2] at h
              by_cases hf2 : fileExists s folder pf = true
              · exact ⟨hm', hf, fun s' hs' => by cases hs'; exact ⟨hm2', hf2⟩⟩
              · rw [if_neg hf2] at h
                exact absurd h (dictAppend_ne_nil _ _ _)
          · rw [if_neg hf] at h
            by_cases hm2 : memStr folder s.subfolders = false
            · rw [if_pos hm2] at h; exact absurd h (dictEnsure_ne_nil _ _)
            · rw [if_neg hm2] at h
              by_cases hf2 : fileExists s folder pf = true
              · rw [if_pos hf2] at h; exact absurd h (dictAppend_ne_nil _ _ _)
              · rw [if_neg hf2] at h; exact absurd h (dictAppend_ne_nil _ _ _)
  · intro hok
    cases hcv : csvRowData r with
    | none =>
        cases src? with
        | none => simp only [csvStep, hcv]
        | some s => simp only [csvStep, hcv]
    | some pr =>
        obtain ⟨folder, pf⟩ := pr
        rcases hok folder pf hcv with ⟨h1, h2, h3⟩
        have hmf : ¬ memStr folder t.subfolders = false := by simp [h1]
        cases src? with
        | none =>
            simp only [csvStep, hcv]
            rw [if_neg hmf, if_pos h2]
        | some s =>
            rcases h3 s rfl with ⟨h4, h5⟩
            have hmf2 : ¬ memStr folder s.subfolders = false := by simp [h4]
            simp only [csvStep, hcv]
            rw [if_neg hmf, if_pos h2, if_neg hmf2, if_pos h5]

theorem csvStep_inv {rows : List CsvRow} {t : FsTree} {src? : Option FsTree}
    {d : MissingDict} {r : CsvRow} (hr : r ∈ rows)
    (hI : dictInv (actuallyMissingAt (.csv rows) t src?) d) :
    dictInv (actuallyMissingAt (.csv rows) t src?) (csvStep t src? d r) := by
  cases hcv : csvRowData r with
  | none =>
      cases src? with
      | none => simp only [csvStep, hcv]; exact hI
      | some s => simp only [csvStep, hcv]; exact hI
  | some pr =>
      obtain ⟨folder, pf⟩ := pr
      have hreq : (folder, pf) ∈ manifestReq (.csv rows) := by
        simp only [manifestReq, List.mem_filterMap]
        exact ⟨r, hr, hcv⟩
      cases src? with
      | none =>
          simp only [csvStep, hcv]
          by_cases hm : memStr folder t.subfolders = false
          · rw [if_pos hm]; exact dictInv_dictEnsure hI
          · rw [if_neg hm]
            by_cases hf : fileExists t folder pf = true
            · rw [if_pos hf]; exact hI
            · rw [if_neg hf]
              exact dictInv_dictAppend hI ⟨folder, hreq, Or.inl ⟨rfl, bool_eq_false hf⟩⟩
      | some s =>
          simp only [csvStep, hcv]
          by_cases hm : memStr folder t.subfolders = false
          · rw [if_pos hm]; exact dictInv_dictEnsure hI
          · rw [if_neg hm]
            by_cases hf : fileExists t folder pf = true
            · rw [if_pos hf]
              by_cases hm2 : memStr folder s.subfolders = false
              · rw [if_pos hm2]; exact dictInv_dictEnsure hI
              · rw [if_neg hm2]
                by_cases hf2 : fileExists s folder pf = true
                · rw [if_pos hf2]; exact hI
                · rw [if_neg hf2]
                  exact dictInv_dictAppend hI
                    ⟨folder, hreq, Or.inr ⟨s, rfl, rfl, bool_eq_false hf2⟩⟩
            · rw [if_neg hf]
              have hD : dictInv (actuallyMissingAt (.csv rows) t (some s))
                  (dictAppend d ("target/" ++ folder) pf) :=
                dictInv_dictAppend hI ⟨folder, hreq, Or.inl ⟨rfl, bool_eq_false hf⟩⟩
              by_cases hm2 : memStr folder s.subfolders = false
              · rw [if_pos hm2]; exact dictInv_dictEnsure hD
              · rw [if_neg hm2]
                by_cases hf2 : fileExists s folder pf = true
                · rw [if_pos hf2]; exact hD
                · rw [if_neg hf2]
                  exact dictInv_dictAppend hD
                    ⟨folder, hreq, Or.inr ⟨s, rfl, rfl, bool_eq_false hf2⟩⟩

theorem csvPhase_nil_iff {rows : List CsvRow} {t : FsTree} {src? : Option FsTree} :
    csvFilePhase rows t src? = [] ↔ ∀ r ∈ rows, csvRowOk t src? r :=
  foldl_nil_iff _ _ (fun _ _ hd => csvStep_ne_nil hd) (fun _ => csvStep_nil_iff) rows

/-! ## Validation success characterization -/

theorem targetFoldersMsg_ne_successMsg (l : List String) (b : Bool) :
    targetFoldersMsg l ≠ successMsg b := errMsg_ne_successMsg _ _

theorem sourceFoldersMsg_ne_successMsg (l : List String) (b : Bool) :
    sourceFoldersMsg l ≠ successMsg b := errMsg_ne_successMsg _ _

theorem validateXlsx_success_iff {sheets : List Sheet} {t : FsTree} {src? : Option FsTree} :
    validateXlsx sheets t src? = successMsg src?.isSome ↔ validOk (.xlsx sheets) t src? := by
  constructor
  · intro h
    cases src? with
    | none =>
        simp only [validateXlsx] at h
        by_cases ht : missingFolders sheets t = []
        · rw [if_neg (not_not_intro ht)] at h
          unfold filesPhaseResult at h
          by_cases hd : xlsxFilePhase sheets t none = []
          · have hsh := xlsxPhase_nil_iff.mp hd
            exact ⟨sideOk_xlsx.mpr ⟨ht, fun sh hs => (hsh sh hs).1⟩, fun s hs => by cases hs⟩
          · rw [if_neg hd] at h
            exact absurd h (missingFilesMsg_ne_successMsg _ _)
        · rw [if_pos ht] at h
          exact absurd h (targetFoldersMsg_ne_successMsg _ _)
    | some s =>
        simp only [validateXlsx] at h
        by_cases ht : missingFolders sheets t = []
        · rw [if_neg (not_not_intro ht)] at h
          by_cases hs : missingFolders sheets s = []
          · rw [if_neg (not_not_intro hs)] at h
            unfold filesPhaseResult at h
            by_cases hd : xlsxFilePhase sheets t (some s) = []
            · have hsh := xlsxPhase_nil_iff.mp hd
              refine ⟨sideOk_xlsx.mpr ⟨ht, fun sh hm => (hsh sh hm).1⟩, ?_⟩
              intro s' hs'
              cases hs'
              exact sideOk_xlsx.mpr ⟨hs, fun sh hm => (hsh sh hm).2 s rfl⟩
            · rw [if_neg hd] at h
              exact absurd h (missingFilesMsg_ne_successMsg _ _)
          · rw [if_pos hs] at h
            exact absurd h (sourceFoldersMsg_ne_successMsg _ _)
        · rw [if_pos ht] at h
          exact absurd h (targetFoldersMsg_ne_successMsg _ _)
  · rintro ⟨hokT, hokS⟩
    rcases sideOk_xlsx.mp hokT with ⟨ht, hmt⟩
    cases src? with
    | none =>
        simp only [validateXlsx]
        rw [if_neg (not_not_intro ht)]
        unfold filesPhaseResult
        rw [if_pos (xlsxPhase_nil_iff.mpr (fun sh hs => ⟨hmt sh hs, fun s hctr => by cases hctr⟩))]
        rfl
    | some s =>
        rcases sideOk_xlsx.mp (hokS s rfl) with ⟨hs, hms⟩
        simp only [validateXlsx]
        rw [if_neg (not_not_intro ht), if_neg (not_not_intro hs)]
        unfold filesPhaseResult
        rw [if_pos (xlsxPhase_nil_iff.mpr
          (fun sh hsm => ⟨hmt sh hsm, fun s' hseq => by cases hseq; exact hms sh hsm⟩))]
        rfl

theorem validateCsv_success_iff {rows : List CsvRow} {t : FsTree} {src? : Option FsTree} :
    filesPhaseResult (csvFilePhase rows t src?) src?.isSome = successMsg src?.isSome ↔
      validOk (.csv rows) t src? := by
  unfold filesPhaseResult
  by_cases hd : csvFilePhase rows t src? = []
  · rw [if_pos hd]
    constructor
    · intro _; exact sideOkBoth_csv.mp (csvPhase_nil_iff.mp hd)
    · intro _; rfl
  · rw [if_neg hd]
    constructor
    · intro h; exact absurd h (missingFilesMsg_ne_successMsg _ _)
    · intro hok; exact absurd (csvPhase_nil_iff.mpr (sideOkBoth_csv.mpr hok)) hd

/-- C2 (corrected): validation returns the success message iff every manifest
    group is an immediate subfolder of every validated side and every required
    file exists under its group subfolder there; every filename in the
    accumulated missing-files report is genuinely required and genuinely
    absent; and in spreadsheet mode every reported entry's list is non-empty.
    (The original claim's unconditional non-emptiness fails in flat CSV mode,
    where a missing group contributes an entry with an empty file list.) -/
theorem c2_validate_success_iff_amended :
    ∀ (m : Manifest) (t : FsTree) (src? : Option FsTree),
      (validate_target_folders_with_partition m t src? = successMsg src?.isSome ↔
        validOk m t src?) ∧
      (∀ p ∈ reportEntries m t src?, ∀ f ∈ p.2, actuallyMissingAt m t src? p.1 f) ∧
      (∀ sheets, m = Manifest.xlsx sheets → ∀ p ∈ reportEntries m t src?, p.2 ≠ []) := by
  intro m t src?
  refine ⟨?_, ?_, ?_⟩
  · cases m with
    | xlsx sheets => exact validateXlsx_success_iff
    | csv rows => exact validateCsv_success_iff
  · cases m with
    | xlsx sheets =>
        exact foldl_preserve (xlsxStep t src?) (dictInv (actuallyMissingAt (.xlsx sheets) t src?))
          sheets (fun d sh hsh hI => xlsxStep_inv hsh hI) [] (dictInv_nil _)
    | csv rows =>
        exact foldl_preserve (csvStep t src?) (dictInv (actuallyMissingAt (.csv rows) t src?))
          rows (fun d r hr hI => csvStep_inv hr hI) [] (dictInv_nil _)
  · rintro sheets rfl
    exact foldl_preserve (xlsxStep t src?) dictValsNE sheets
      (fun d sh _ hI => dictValsNE_xlsxStep hI) [] dictValsNE_nil

/-- C2 counterexample: in flat CSV mode, a manifest row whose group `Boot` is
    absent from the target produces a non-success report whose only
    missing-items entry is the empty list — not a non-empty subset as the
    claim states. -/
theorem c2_counterexample :
    validate_target_folders_with_partition
        (Manifest.csv [[("Partition", "Boot"), ("Partition_Filename", "boot.img")]])
        ⟨[], []⟩ none ≠ successMsg false ∧
    reportEntries (Manifest.csv [[("Partition", "Boot"), ("Partition_Filename", "boot.img")]])
        ⟨[], []⟩ none = [("target/Boot", [])] ∧
    (reportEntries (Manifest.csv [[("Partition", "Boot"), ("Partition_Filename", "boot.img")]])
        ⟨[], []⟩ none).flatMap Prod.snd = [] := by
  refine ⟨by decide, by decide, by decide⟩

/-- C2 witness: a one-sheet manifest whose single required file exists
    validates successfully, via the amended theorem. -/
theorem c2_witness :
    validate_target_folders_with_partition
        (Manifest.xlsx [⟨"Boot", [[some "Partition_Filename"], [some "boot.img"]]⟩])
        ⟨["Boot"], [("Boot", "boot.img")]⟩ none = successMsg false ∧
    validOk (Manifest.xlsx [⟨"Boot", [[some "Partition_Filename"], [some "boot.img"]]⟩])
        ⟨["Boot"], [("Boot", "boot.img")]⟩ none := by
  have hok : validOk (Manifest.xlsx [⟨"Boot", [[some "Partition_Filename"], [some "boot.img"]]⟩])
      ⟨["Boot"], [("Boot", "boot.img")]⟩ none := by
    refine ⟨⟨?_, ?_⟩, ?_⟩
    · decide
    · decide
    · intro s hs; cases hs
  exact ⟨((c2_validate_success_iff_amended _ _ _).1).mpr hok, hok⟩

/-- C3 (corrected, spreadsheet mode): when at least one sheet name is not an
    immediate subfolder of the side being checked, spreadsheet-mode validation
    returns the missing-subfolders message for that side, listing exactly the
    manifest groups absent from that side, and the result is independent of
    the file contents of the trees (no file-level checks influence it).  The
    original claim fails in flat CSV mode, which has no group-presence phase
    (see the counterexample). -/
theorem c3_xlsx_missing_groups_fail_fast :
    ∀ (sheets : List Sheet) (subs : List String) (fs1 fs2 : List (String × String))
      (src? : Option FsTree),
      (missingFolders sheets ⟨subs, fs1⟩ ≠ [] →
        validate_target_folders_with_partition (.xlsx sheets) ⟨subs, fs1⟩ src? =
          targetFoldersMsg (missingFolders sheets ⟨subs, fs1⟩) ∧
        validate_target_folders_with_partition (.xlsx sheets) ⟨subs, fs1⟩ src? =
          validate_target_folders_with_partition (.xlsx sheets) ⟨subs, fs2⟩ src?) ∧
      (∀ g, g ∈ missingFolders sheets ⟨subs, fs1⟩ ↔
        g ∈ manifestGroups (.xlsx sheets) ∧ memStr g subs = false) ∧
      (∀ ssubs sfs1 sfs2, missingFolders sheets ⟨subs, fs1⟩ = [] →
        missingFolders sheets ⟨ssubs, sfs1⟩ ≠ [] →
        validate_target_folders_with_partition (.xlsx sheets) ⟨subs, fs1⟩
            (some ⟨ssubs, sfs1⟩) =
          sourceFoldersMsg (missingFolders sheets ⟨ssubs, sfs1⟩) ∧
        validate_target_folders_with_partition (.xlsx sheets) ⟨subs, fs1⟩
            (some ⟨ssubs, sfs1⟩) =
          validate_target_folders_with_partition (.xlsx sheets) ⟨subs, fs2⟩
            (some ⟨ssubs, sfs2⟩)) := by
  intro sheets subs fs1 fs2 src?
  refine ⟨?_, ?_, ?_⟩
  · intro hne
    constructor
    · show validateXlsx sheets ⟨subs, fs1⟩ src? = _
      unfold validateXlsx
      rw [if_pos hne]
    · show validateXlsx sheets ⟨subs, fs1⟩ src? = validateXlsx sheets ⟨subs, fs2⟩ src?
      unfold validateXlsx
      rw [if_pos hne, if_pos (show missingFolders sheets ⟨subs, fs2⟩ ≠ [] from hne)]
      rfl
  · intro g
    rw [mem_missingFolders]
    constructor
    · rintro ⟨sh, hsh, rfl, hm⟩
      refine ⟨?_, hm⟩
      simp only [manifestGroups, List.mem_map]
      exact ⟨sh, hsh, rfl⟩
    · rintro ⟨hg, hm⟩
      simp only [manifestGroups, List.mem_map] at hg
      rcases hg with ⟨sh, hsh, rfl⟩
      exact ⟨sh, hsh, rfl, hm⟩
  · intro ssubs sfs1 sfs2 ht hsne
    constructor
    · show validateXlsx sheets ⟨subs, fs1⟩ (some ⟨ssubs, sfs1⟩) = _
      simp only [validateXlsx]
      rw [if_neg (not_not_intro ht), if_pos hsne]
    · show validateXlsx sheets ⟨subs, fs1⟩ (some ⟨ssubs, sfs1⟩) =
        validateXlsx sheets ⟨subs, fs2⟩ (some ⟨ssubs, sfs2⟩)
      simp only [validateXlsx]
      rw [if_neg (not_not_intro ht),
        if_neg (not_not_intro (show missingFolders sheets ⟨subs, fs2⟩ = [] from ht)),
        if_pos hsne, if_pos (show missingFolders sheets ⟨ssubs, sfs2⟩ ≠ [] from hsne)]
      rfl

/-- C3 counterexample: in flat CSV mode a missing group does not abort
    validation — the run still performs file-level checks (the present group
    `System` gets a missing-file entry `sys.img`) and returns the
    missing-files report, not a missing-group message. -/
theorem c3_counterexample :
    memStr "Vendor" (FsTree.mk ["System"] []).subfolders = false ∧
    "Vendor" ∈ manifestGroups (Manifest.csv
      [[("Partition", "System"), ("Partition_Filename", "sys.img")],
       [("Partition", "Vendor"), ("Partition_Filename", "v.img")]]) ∧
    reportEntries (Manifest.csv
      [[("Partition", "System"), ("Partition_Filename", "sys.img")],
       [("Partition", "Vendor"), ("Partition_Filename", "v.img")]]) ⟨["System"], []⟩ none =
      [("target/System", ["sys.img"]), ("target/Vendor", [])] ∧
    validate_target_folders_with_partition (Manifest.csv
      [[("Partition", "System"), ("Partition_Filename", "sys.img")],
       [("Partition", "Vendor"), ("Partition_Filename", "v.img")]]) ⟨["System"], []⟩ none =
      missingFilesMsg [("target/System", ["sys.img"]), ("target/Vendor", [])] := by
  refine ⟨by decide, by decide, by decide, by decide⟩

/-- C3 witness: Scenario A — groups System and Vendor, target has only
    System: validation fails with the missing-subfolders message, and Vendor
    is listed as missing exactly because it is a manifest group absent from
    the target. -/
theorem c3_witness :
    missingFolders [⟨"System", []⟩, ⟨"Vendor", []⟩] ⟨["System"], []⟩ ≠ [] ∧
    validate_target_folders_with_partition
        (Manifest.xlsx [⟨"System", []⟩, ⟨"Vendor", []⟩]) ⟨["System"], []⟩ none =
      targetFoldersMsg (missingFolders [⟨"System", []⟩, ⟨"Vendor", []⟩] ⟨["System"], []⟩) ∧
    ("Vendor" ∈ missingFolders [⟨"System", []⟩, ⟨"Vendor", []⟩] ⟨["System"], []⟩ ↔
      "Vendor" ∈ manifestGroups (Manifest.xlsx [⟨"System", []⟩, ⟨"Vendor", []⟩]) ∧
        memStr "Vendor" ["System"] = false) := by
  have h := c3_xlsx_missing_groups_fail_fast [⟨"System", []⟩, ⟨"Vendor", []⟩]
    ["System"] [] [] none
  exact ⟨by decide, (h.1 (by decide)).1, h.2.1 "Vendor"⟩

/-! ## C1: proprietary differ reports completion as success -/

/-- C1 (confirmed): once the executable and every named config file are
    present, each config's subprocess runs and any run that completes without
    timeout or exception is reported with the success line regardless of its
    exit code (Utils.py:594-601, the Simulation quirk). -/
theorem c1_completed_reported_success :
    ∀ (ws : Workspace) (oracle : String → ProcResult) (names : String),
      ws.redbendExists = true →
      redbendMissingConfigs ws names = [] →
      ((generate_delta ws oracle names).results =
        (pySplitComma names).map (fun c => redbendLine c (oracle c)) ∧
       (generate_delta ws oracle names).invoked = pySplitComma names) ∧
      ∀ c rc out err, oracle c = ProcResult.completed rc out err →
        redbendLine c (oracle c) = "✓ " ++ c ++ ": Success\n  Output: " ++ take200 out := by
  intro ws oracle names hre hmc
  constructor
  · constructor
    · simp [generate_delta, hre, hmc]
    · simp [generate_delta, hre, hmc]
  · intro c rc out err hc
    rw [hc]
    simp [redbendLine]

/-- C1 witness: Scenario D — two config files, exit codes 0 and 1, both
    reported as successes. -/
theorem c1_witness :
    (generate_delta ⟨"/w", true, ["config_System.xml", "config_Vendor.xml"], true⟩
        (fun c => if c = "config_System.xml" then ProcResult.completed 0 "ok" ""
                  else ProcResult.completed 1 "sim" "err")
        "config_System.xml,config_Vendor.xml").results =
      ["✓ config_System.xml: Success\n  Output: ok",
       "✓ config_Vendor.xml: Success\n  Output: sim"] := by
  have h := c1_completed_reported_success
    ⟨"/w", true, ["config_System.xml", "config_Vendor.xml"], true⟩
    (fun c => if c = "config_System.xml" then ProcResult.completed 0 "ok" ""
              else ProcResult.completed 1 "sim" "err")
    "config_System.xml,config_Vendor.xml" rfl (by decide)
  exact h.1.1.trans (by decide)

/-! ## C9: failed preconditions and their side effects -/

/-- C9 (corrected): a failed upfront precondition check (missing proprietary
    executable or named config file; failed generic-tool probe or missing
    image) returns the descriptive error with no delta subprocess invoked and
    no per-unit results — but both invokers create their output directory
    before those checks, so a failed call does create filesystem state when
    the directory was absent; that directory creation is the only filesystem
    effect of the failed call. -/
theorem c9_failed_preconditions_effects :
    (∀ (ws : Workspace) (oracle : String → ProcResult) (names : String),
      (ws.redbendExists = false →
        generate_delta ws oracle names =
          ⟨"Error: Redbend executable 'vRapidMobileCMD-Linux.exe' not found in current directory: " ++ ws.cwd,
            !ws.deltaOutputExists, [], []⟩) ∧
      (ws.redbendExists = true → redbendMissingConfigs ws names ≠ [] →
        generate_delta ws oracle names =
          ⟨"Error: Config file(s) not found: " ++ commaJoin (redbendMissingConfigs ws names),
            !ws.deltaOutputExists, [], []⟩)) ∧
    (∀ (existingPaths existingDirs : List String) (probeOk : String → Bool)
        (oracle : String → ProcResult) (dEx : String → Bool) (dSz : String → Nat)
        (cwd pfiles sp tp sheet : String) (outp : Option String),
      (xdeltaCandidates.find? probeOk = none →
        generate_xdelta existingPaths existingDirs probeOk oracle dEx dSz
            cwd pfiles sp tp sheet outp =
          ⟨"Error: XDelta executable not found. Please install xdelta3 or ensure it's in PATH.",
            if memStr (outp.getD (pathJoin cwd "delta_output")) existingDirs = false
              then [outp.getD (pathJoin cwd "delta_output")] else [], [], []⟩) ∧
      (∀ e, xdeltaCandidates.find? probeOk = some e →
        xdeltaMissing existingPaths sp tp sheet (pySplitComma pfiles) ≠ [] →
        generate_xdelta existingPaths existingDirs probeOk oracle dEx dSz
            cwd pfiles sp tp sheet outp =
          ⟨"Error: Partition file(s) not found:\n" ++
              joinSep "\n" ((xdeltaMissing existingPaths sp tp sheet
                (pySplitComma pfiles)).map (fun f => "  - " ++ f)),
            if memStr (outp.getD (pathJoin cwd "delta_output")) existingDirs = false
              then [outp.getD (pathJoin cwd "delta_output")] else [], [], []⟩)) := by
  constructor
  · intro ws oracle names
    constructor
    · intro hre
      simp [generate_delta, hre]
    · intro hre hmc
      simp [generate_delta, hre, hmc]
  · intro existingPaths existingDirs probeOk oracle dEx dSz cwd pfiles sp tp sheet outp
    constructor
    · intro hfind
      simp [generate_xdelta, hfind]
    · intro e hfind hmiss
      simp [generate_xdelta, hfind, hmiss]

/-- C9 counterexample: with the output directory absent and the executable
    missing, the failed call reports the error without any invocation yet
    still creates delta_output — refuting "no filesystem state is created or
    modified by the failed call". -/
theorem c9_counterexample :
    (generate_delta ⟨"/work", false, [], false⟩ (fun _ => ProcResult.timedOut)
        "config.xml").message =
      "Error: Redbend executable 'vRapidMobileCMD-Linux.exe' not found in current directory: /work" ∧
    (generate_delta ⟨"/work", false, [], false⟩ (fun _ => ProcResult.timedOut)
        "config.xml").invoked = [] ∧
    (generate_delta ⟨"/work", false, [], false⟩ (fun _ => ProcResult.timedOut)
        "config.xml").createdDeltaOutput = true := by
  refine ⟨by decide, by decide, by decide⟩

/-- C9 witness: both backends at concrete failing inputs, via the theorem. -/
theorem c9_witness :
    generate_delta ⟨"/w", false, ["config.xml"], true⟩ (fun _ => ProcResult.timedOut)
        "config.xml" =
      ⟨"Error: Redbend executable 'vRapidMobileCMD-Linux.exe' not found in current directory: /w",
        false, [], []⟩ ∧
    generate_xdelta [] [] (fun _ => false) (fun _ => ProcResult.timedOut) (fun _ => false)
        (fun _ => 0) "/w" "system" "src" "tgt" "Grp" none =
      ⟨"Error: XDelta executable not found. Please install xdelta3 or ensure it's in PATH.",
        ["/w/delta_output"], [], []⟩ := by
  constructor
  · exact ((c9_failed_preconditions_effects.1 ⟨"/w", false, ["config.xml"], true⟩
      (fun _ => ProcResult.timedOut) "config.xml").1 rfl).trans (by decide)
  · exact ((c9_failed_preconditions_effects.2 [] [] (fun _ => false)
      (fun _ => ProcResult.timedOut) (fun _ => false) (fun _ => 0)
      "/w" "system" "src" "tgt" "Grp" none).1 (by decide)).trans (by decide)

/-! ## C5: generic binary-diff pre-validation -/

theorem mem_xdeltaMissing_source {paths : List String} {sp tp sheet : String}
    {parts : List String} {p : String} (hp : p ∈ parts) :
    ("source: " ++ xdeltaImgFile sp sheet p) ∈ xdeltaMissing paths sp tp sheet parts ↔
      memStr (xdeltaImgFile sp sheet p) paths = false := by
  constructor
  · intro h
    rcases List.mem_flatMap.mp h with ⟨q, hq, hmem⟩
    rcases List.mem_append.mp hmem with h1 | h1
    · by_cases hms : memStr (xdeltaImgFile sp sheet q) paths = false
      · rw [if_pos hms] at h1
        rw [List.mem_singleton] at h1
        rw [strAppendLeftCancel h1]
        exact hms
      · rw [if_neg hms] at h1; cases h1
    · by_cases hmt : memStr (xdeltaImgFile tp sheet q) paths = false
      · rw [if_pos hmt] at h1
        rw [List.mem_singleton] at h1
        exact absurd h1 (sourceTag_ne_targetTag _ _)
      · rw [if_neg hmt] at h1; cases h1
  · intro h
    apply List.mem_flatMap.mpr
    refine ⟨p, hp, List.mem_append.mpr (Or.inl ?_)⟩
    rw [if_pos h]
    exact List.mem_singleton.mpr rfl

theorem mem_xdeltaMissing_target {paths : List String} {sp tp sheet : String}
    {parts : List String} {p : String} (hp : p ∈ parts) :
    ("target: " ++ xdeltaImgFile tp sheet p) ∈ xdeltaMissing paths sp tp sheet parts ↔
      memStr (xdeltaImgFile tp sheet p) paths = false := by
  constructor
  · intro h
    rcases List.mem_flatMap.mp h with ⟨q, hq, hmem⟩
    rcases List.mem_append.mp hmem with h1 | h1
    · by_cases hms : memStr (xdeltaImgFile sp sheet q) paths = false
      · rw [if_pos hms] at h1
        rw [List.mem_singleton] at h1
        exact absurd h1.symm (sourceTag_ne_targetTag _ _)
      · rw [if_neg hms] at h1; cases h1
    · by_cases hmt : memStr (xdeltaImgFile tp sheet q) paths = false
      · rw [if_pos hmt] at h1
        rw [List.mem_singleton] at h1
        rw [strAppendLeftCancel h1]
        exact hmt
      · rw [if_neg hmt] at h1; cases h1
  · intro h
    apply List.mem_flatMap.mpr
    refine ⟨p, hp, List.mem_append.mpr (Or.inr ?_)⟩
    rw [if_pos h]
    exact List.mem_singleton.mpr rfl

/-- C5 (confirmed): when the executable probe succeeds but some requested
    partition's source or target image is absent, the invoker returns the
    single aggregated error listing exactly the missing paths of every
    requested partition, performs no delta invocation and produces no
    per-unit results. -/
theorem c5_xdelta_missing_upfront :
    ∀ (existingPaths existingDirs : List String) (probeOk : String → Bool)
      (oracle : String → ProcResult) (dEx : String → Bool) (dSz : String → Nat)
      (cwd pfiles sp tp sheet : String) (outp : Option String) (e : String),
      xdeltaCandidates.find? probeOk = some e →
      (∃ p ∈ pySplitComma pfiles,
        memStr (xdeltaImgFile sp sheet p) existingPaths = false ∨
        memStr (xdeltaImgFile tp sheet p) existingPaths = false) →
      (generate_xdelta existingPaths existingDirs probeOk oracle dEx dSz
          cwd pfiles sp tp sheet outp).message =
        "Error: Partition file(s) not found:\n" ++
          joinSep "\n" ((xdeltaMissing existingPaths sp tp sheet
            (pySplitComma pfiles)).map (fun f => "  - " ++ f)) ∧
      (generate_xdelta existingPaths existingDirs probeOk oracle dEx dSz
          cwd pfiles sp tp sheet outp).invoked = [] ∧
      (generate_xdelta existingPaths existingDirs probeOk oracle dEx dSz
          cwd pfiles sp tp sheet outp).results = [] ∧
      (∀ p ∈ pySplitComma pfiles,
        (memStr (xdeltaImgFile sp sheet p) existingPaths = false ↔
          ("source: " ++ xdeltaImgFile sp sheet p) ∈
            xdeltaMissing existingPaths sp tp sheet (pySplitComma pfiles)) ∧
        (memStr (xdeltaImgFile tp sheet p) existingPaths = false ↔
          ("target: " ++ xdeltaImgFile tp sheet p) ∈
            xdeltaMissing existingPaths sp tp sheet (pySplitComma pfiles))) := by
  intro existingPaths existingDirs probeOk oracle dEx dSz cwd pfiles sp tp sheet outp e
    hfind hex
  have hne : xdeltaMissing existingPaths sp tp sheet (pySplitComma pfiles) ≠ [] := by
    rcases hex with ⟨p, hp, hc | hc⟩
    · exact List.ne_nil_of_mem ((mem_xdeltaMissing_source hp).mpr hc)
    · exact List.ne_nil_of_mem ((mem_xdeltaMissing_target hp).mpr hc)
  refine ⟨?_, ?_, ?_, ?_⟩
  · simp [generate_xdelta, hfind, hne]
  · simp [generate_xdelta, hfind, hne]
  · simp [generate_xdelta, hfind, hne]
  · intro p hp
    exact ⟨(mem_xdeltaMissing_source hp).symm, (mem_xdeltaMissing_target hp).symm⟩

/-- C5 witness: Scenario C — partitions system and vendor with vendor.img
    absent from the source: one upfront error naming the missing path, no
    invocations. -/
theorem c5_witness :
    (generate_xdelta ["src/Grp/system.img", "tgt/Grp/system.img", "tgt/Grp/vendor.img"] []
        (fun e => decide (e = "xdelta3")) (fun _ => ProcResult.timedOut) (fun _ => false)
        (fun _ => 0) "/w" "system,vendor" "src" "tgt" "Grp" none).message =
      "Error: Partition file(s) not found:\n  - source: src/Grp/vendor.img" ∧
    (generate_xdelta ["src/Grp/system.img", "tgt/Grp/system.img", "tgt/Grp/vendor.img"] []
        (fun e => decide (e = "xdelta3")) (fun _ => ProcResult.timedOut) (fun _ => false)
        (fun _ => 0) "/w" "system,vendor" "src" "tgt" "Grp" none).invoked = [] := by
  have h := c5_xdelta_missing_upfront
    ["src/Grp/system.img", "tgt/Grp/system.img", "tgt/Grp/vendor.img"] []
    (fun e => decide (e = "xdelta3")) (fun _ => ProcResult.timedOut) (fun _ => false)
    (fun _ => 0) "/w" "system,vendor" "src" "tgt" "Grp" none "xdelta3"
    (by decide) (by decide)
  exact ⟨h.1.trans (by decide), h.2.1⟩

/-! ## C4 and C10: job descriptor generation -/

/-- C4 (confirmed): in spreadsheet mode with no explicit group selected, a
    manifest with more than one sheet returns the sheet-selection prompt and
    writes nothing; a single-sheet manifest that yields job units builds and
    writes the descriptor directly, returning the success message rather
    than a prompt. -/
theorem c4_prompt_or_build :
    ∀ (sheets : List Sheet) (cwd sp tp cdf : String) (outp : Option String)
      (dirs : List String),
      (sheets.length > 1 →
        generate_config_xml sheets cwd sp tp cdf outp none dirs =
          ⟨"Multiple partition sheets found: " ++ commaJoin (sheets.map Sheet.name) ++
            ". Please specify which partition sheet to generate delta for using the partition_sheet parameter.",
            [], []⟩) ∧
      (sheets.length = 1 → sheets.flatMap (sheetPartitions cwd sp tp) ≠ [] →
        (generate_config_xml sheets cwd sp tp cdf outp none dirs).written =
          [((cfgOutputTarget (outp.getD cwd) none).1,
            joinSep "\n" (configXmlLines cdf (sheets.flatMap (sheetPartitions cwd sp tp))))] ∧
        (generate_config_xml sheets cwd sp tp cdf outp none dirs).message =
          "Success: Generated config.xml with " ++
            toString (sheets.flatMap (sheetPartitions cwd sp tp)).length ++ " partitions" ++
            cfgSheetInfo none ++ " at " ++ (cfgOutputTarget (outp.getD cwd) none).1 ++
            ". Please review the config file and confirm when ready to generate delta.") := by
  intro sheets cwd sp tp cdf outp dirs
  constructor
  · intro hlen
    simp only [generate_config_xml]
    rw [if_pos (show sheets.length > 1 ∧ True from ⟨hlen, trivial⟩)]
  · intro hlen hne
    simp only [generate_config_xml]
    rw [if_neg (by rintro ⟨h1, _⟩; rw [hlen] at h1; exact absurd h1 (by decide))]
    simp only [generate_config_write]
    rw [if_neg hne]
    exact ⟨rfl, rfl⟩

/-- C4 witness: a two-sheet manifest prompts with the sheet list; a one-sheet
    manifest producing one job unit writes config.xml directly. -/
theorem c4_witness :
    generate_config_xml [⟨"A", []⟩, ⟨"B", []⟩] "/w" "src" "tgt" "d.mld" none none [] =
      ⟨"Multiple partition sheets found: A, B. Please specify which partition sheet to generate delta for using the partition_sheet parameter.",
        [], []⟩ ∧
    (generate_config_xml
        [⟨"Grp", [[some "PartitionName", some "PartitionType", some "ImageType",
            some "InPlace", some "Sparse"], [some "system", none, none, none, none]]⟩]
        "/w" "src" "tgt" "d.mld" none none []).written.map Prod.fst = ["/w/config.xml"] := by
  constructor
  · exact ((c4_prompt_or_build [⟨"A", []⟩, ⟨"B", []⟩] "/w" "src" "tgt" "d.mld" none []).1
      (by decide)).trans (by decide)
  · have h := (c4_prompt_or_build
      [⟨"Grp", [[some "PartitionName", some "PartitionType", some "ImageType",
          some "InPlace", some "Sparse"], [some "system", none, none, none, none]]⟩]
      "/w" "src" "tgt" "d.mld" none []).2 rfl (by decide)
    rw [h.1]
    decide

/-- C10 (confirmed): an output_path ending in '.xml' is used verbatim as the
    descriptor file path — even when a group is selected, bypassing the
    config.xml / config_<group>.xml naming rule — and the file's parent
    directory is created exactly when it is non-empty and absent. -/
theorem c10_xml_output_path_override :
    ∀ (sheets : List Sheet) (cwd sp tp cdf outp : String) (psheet : Option String)
      (dirs : List String),
      strEndsWith outp ".xml" = true →
      ¬(sheets.length > 1 ∧ psheet = none) →
      (∀ ps, psheet = some ps → memStr ps (sheets.map Sheet.name) = true) →
      (match psheet with
        | some ps => sheetsToProcess sheets ps
        | none => sheets).flatMap (sheetPartitions cwd sp tp) ≠ [] →
      (generate_config_xml sheets cwd sp tp cdf (some outp) psheet dirs).written.map Prod.fst =
        [outp] ∧
      (generate_config_xml sheets cwd sp tp cdf (some outp) psheet dirs).createdDirs =
        (if dirname outp ≠ "" ∧ memStr (dirname outp) dirs = false
          then [dirname outp] else []) := by
  intro sheets cwd sp tp cdf outp psheet dirs hxml hguard hvalid hne
  cases psheet with
  | none =>
      have hne' : sheets.flatMap (sheetPartitions cwd sp tp) ≠ [] := hne
      have hg : ¬(sheets.length > 1 ∧ True) := fun hx => hguard ⟨hx.1, rfl⟩
      simp only [generate_config_xml]
      rw [if_neg hg]
      simp only [generate_config_write]
      rw [if_neg hne']
      constructor
      · simp [cfgOutputTarget, Option.getD_some, hxml]
      · simp [cfgOutputTarget, Option.getD_some, hxml]
  | some ps =>
      have hne' : (sheetsToProcess sheets ps).flatMap (sheetPartitions cwd sp tp) ≠ [] := hne
      have hv : ¬ (memStr ps (List.map Sheet.name sheets) = false) := by
        rw [hvalid ps rfl]; decide
      simp only [generate_config_xml]
      rw [if_neg hguard]
      rw [if_neg hv]
      simp only [generate_config_write]
      rw [if_neg hne']
      constructor
      · simp [cfgOutputTarget, Option.getD_some, hxml]
      · simp [cfgOutputTarget, Option.getD_some, hxml]

/-- C10 witness: with a selected group and output_path out/custom.xml, the
    descriptor is written to out/custom.xml (not config_Grp.xml) and the
    absent parent directory out is created. -/
theorem c10_witness :
    (generate_config_xml
        [⟨"Grp", [[some "PartitionName", some "PartitionType", some "ImageType",
            some "InPlace", some "Sparse"], [some "system", none, none, none, none]]⟩]
        "/w" "src" "tgt" "d.mld" (some "out/custom.xml") (some "Grp") []).written.map Prod.fst =
      ["out/custom.xml"] ∧
    (generate_config_xml
        [⟨"Grp", [[some "PartitionName", some "PartitionType", some "ImageType",
            some "InPlace", some "Sparse"], [some "system", none, none, none, none]]⟩]
        "/w" "src" "tgt" "d.mld" (some "out/custom.xml") (some "Grp") []).createdDirs =
      ["out"] := by
  have h := c10_xml_output_path_override
    [⟨"Grp", [[some "PartitionName", some "PartitionType", some "ImageType",
        some "InPlace", some "Sparse"], [some "system", none, none, none, none]]⟩]
    "/w" "src" "tgt" "d.mld" "out/custom.xml" (some "Grp") []
    (by decide) (by rintro ⟨_, h2⟩; cases h2) (by intro ps hps; cases hps; decide) (by decide)
  exact ⟨h.1, h.2.trans (by decide)⟩

/-! ## C6: manifest file dispatch -/

/-- C6 (corrected): the dispatch prefers the spreadsheet whenever it exists
    and the dependency is available; the manifest-not-found error occurs
    exactly when neither file exists; and the format error occurs exactly
    when a spreadsheet exists and the dependency is unavailable — regardless
    of whether a flat tabular file also exists (the original claim's "only
    when no flat tabular file exists" is refuted by the counterexample). -/
theorem c6_dispatch_amended :
    ∀ x c h : Bool,
      (manifestDispatch x c h = ManifestDispatch.useXlsx ↔ x = true ∧ h = true) ∧
      (manifestDispatch x c h = ManifestDispatch.formatError ↔ x = true ∧ h = false) ∧
      (manifestDispatch x c h = ManifestDispatch.useCsv ↔ x = false ∧ c = true) ∧
      (manifestDispatch x c h = ManifestDispatch.notFound ↔ x = false ∧ c = false) := by
  decide

/-- C6 counterexample: with both manifest files present and the spreadsheet
    dependency unavailable, the reader reports the format error instead of
    falling back to the flat file — the claim's "format error only when no
    flat tabular file exists" is false. -/
theorem c6_counterexample :
    ¬ (∀ x c h : Bool, manifestDispatch x c h = ManifestDispatch.formatError →
        x = true ∧ c = false) := by
  decide

/-! ## C7 and C8: archive normalization -/

theorem flatten_noop_of_count_ne_one :
    ∀ (path : String) (es : List Entry), (meaningfulSubfolders es).length ≠ 1 →
      flatten_extracted_folder path es = (path, es) := by
  intro path es h
  cases hms : meaningfulSubfolders es with
  | nil => simp [flatten_extracted_folder, hms]
  | cons a l =>
      cases l with
      | nil => exact absurd (by rw [hms]; rfl) h
      | cons b l2 => simp [flatten_extracted_folder, hms]

theorem flatten_hoist_of_single :
    ∀ (path : String) (es : List Entry) (n : String), meaningfulSubfolders es = [n] →
      flatten_extracted_folder path es = (path, dirContentsOf es n) := by
  intro path es n hms
  simp [flatten_extracted_folder, hms]

/-- C7 (corrected): system-artifact and dot-named entries are excluded from
    the meaningful-subfolder count, and when no flattening occurs (count of
    meaningful subfolders differs from one) every entry survives unchanged;
    when flattening does occur, the old top level — including such system
    entries — is removed (see the counterexample), so "never deleted" fails. -/
theorem c7_system_entries_ignored :
    ∀ (path : String) (es : List Entry),
      (∀ e ∈ es, isSystemName (entryName e) = true →
        entryName e ∉ meaningfulSubfolders es) ∧
      ((meaningfulSubfolders es).length ≠ 1 → flatten_extracted_folder path es = (path, es)) := by
  intro path es
  constructor
  · intro e he hsys hmem
    rcases List.mem_filterMap.mp hmem with ⟨e', he', hmatch⟩
    cases e' with
    | file n =>
        have hmatch' : (none : Option String) = some (entryName e) := hmatch
        cases hmatch'
    | dir n c =>
        have hmatch' : (if isSystemName n = true then none else some n) =
          some (entryName e) := hmatch
        by_cases hn : isSystemName n = true
        · rw [if_pos hn] at hmatch'; cases hmatch'
        · have hnf := bool_eq_false hn
          rw [if_neg hn] at hmatch'
          have hne := Option.some.inj hmatch'
          rw [← hne] at hsys
          rw [hnf] at hsys
          cases hsys
  · exact flatten_noop_of_count_ne_one path es

/-- C7 counterexample: a wrapper folder beside a __MACOSX folder triggers
    flattening, and the __MACOSX entry present before normalization is gone
    afterwards — ignored entries ARE deleted when flattening occurs. -/
theorem c7_counterexample :
    "__MACOSX" ∈ entryNames [Entry.dir "payload" [Entry.file "boot.img"],
      Entry.dir "__MACOSX" []] ∧
    isSystemName "__MACOSX" = true ∧
    entryNames (flatten_extracted_folder "p"
      [Entry.dir "payload" [Entry.file "boot.img"], Entry.dir "__MACOSX" []]).2 =
      ["boot.img"] ∧
    "__MACOSX" ∉ entryNames (flatten_extracted_folder "p"
      [Entry.dir "payload" [Entry.file "boot.img"], Entry.dir "__MACOSX" []]).2 := by
  refine ⟨by decide, by decide, by decide, by decide⟩

/-- C7 witness: with two meaningful subfolders beside a __MACOSX folder,
    the __MACOSX name is not counted and nothing is deleted. -/
theorem c7_witness :
    entryName (Entry.dir "__MACOSX" []) ∉
      meaningfulSubfolders [Entry.dir "A" [], Entry.dir "B" [], Entry.dir "__MACOSX" []] ∧
    flatten_extracted_folder "p" [Entry.dir "A" [], Entry.dir "B" [], Entry.dir "__MACOSX" []] =
      ("p", [Entry.dir "A" [], Entry.dir "B" [], Entry.dir "__MACOSX" []]) := by
  have h := c7_system_entries_ignored "p"
    [Entry.dir "A" [], Entry.dir "B" [], Entry.dir "__MACOSX" []]
  exact ⟨h.1 (Entry.dir "__MACOSX" [])
    (List.mem_cons.mpr (Or.inr (List.mem_cons.mpr (Or.inr
      (List.mem_cons.mpr (Or.inl rfl)))))) (by decide), h.2 (by decide)⟩

/-- C8 (corrected): normalization is a no-op — same path, same entries —
    exactly when the count of meaningful subfolders differs from one; when a
    single meaningful subfolder exists its contents replace the directory's
    entries, even if the directory was already flat because sibling
    top-level files exist (see the counterexample). -/
theorem c8_flatten_noop_amended :
    ∀ (path : String) (es : List Entry),
      ((meaningfulSubfolders es).length ≠ 1 → flatten_extracted_folder path es = (path, es)) ∧
      (∀ n, meaningfulSubfolders es = [n] →
        flatten_extracted_folder path es = (path, dirContentsOf es n)) := by
  intro path es
  exact ⟨flatten_noop_of_count_ne_one path es,
    fun n hn => flatten_hoist_of_single path es n hn⟩

/-- C8 counterexample: a directory whose meaningful entries are one subfolder
    plus a sibling file has no redundant single wrapper per the spec's own
    description, yet normalization replaces its entries (and drops README) —
    not a no-op. -/
theorem c8_counterexample :
    specSingleWrapper [Entry.dir "System" [Entry.file "system.img"], Entry.file "README"] =
      false ∧
    entryNames (flatten_extracted_folder "p"
      [Entry.dir "System" [Entry.file "system.img"], Entry.file "README"]).2 =
      ["system.img"] ∧
    entryNames [Entry.dir "System" [Entry.file "system.img"], Entry.file "README"] =
      ["System", "README"] ∧
    (flatten_extracted_folder "p"
      [Entry.dir "System" [Entry.file "system.img"], Entry.file "README"]).2 ≠
      [Entry.dir "System" [Entry.file "system.img"], Entry.file "README"] := by
  refine ⟨by decide, by decide, by decide, ?_⟩
  intro h
  have h2 := congrArg entryNames h
  revert h2
  decide

/-- C8 witness: a directory with two meaningful subfolders is left untouched
    with the same path, via the amended theorem. -/
theorem c8_witness :
    flatten_extracted_folder "p" [Entry.dir "A" [], Entry.dir "B" []] =
      ("p", [Entry.dir "A" [], Entry.dir "B" []]) :=
  (c8_flatten_noop_amended "p" [Entry.dir "A" [], Entry.dir "B" []]).1 (by decide)
